import Mathlib

/-!
# The mini HTTP server of `src/http_server.c`

A shallow embedding of `send_response`, the `page_*` helpers, `handle_client` and the
accept loop of `main`, followed by theorems about request framing, request-line parsing,
routing and the response wire format.

Bytes are natural numbers (the values `0 .. 255` of a C `char` read as unsigned);
a C string is the list of bytes that precede its terminating NUL.  The connection is
modelled by what the successive `read` calls meet and by the bytes handed to `write`.  The
text printed on `stdout` by the diagnostic `printf` and `perror` calls is left out, but not
the fault of the `printf` of line 121, which hands the descriptor to a `%s` conversion: it
ends `handle_client`, and the process, before the first `read`.
-/

set_option maxRecDepth 100000

namespace HttpServer

/-! ## Constants and byte strings -/

/-- `#define REQ_MAX 8192`. -/
def REQ_MAX : Nat := 8192

/-- `#define LINE_MAX 2048`. -/
def LINE_MAX : Nat := 2048

/-- UTF-8 encoding of one code point: the bytes the compiler stores for a character
of a string literal of the (UTF-8 encoded) source file. -/
def utf8Enc (c : Nat) : List Nat :=
  if c < 128 then [c]
  else if c < 2048 then [192 + c / 64, 128 + c % 64]
  else if c < 65536 then [224 + c / 4096, 128 + c / 64 % 64, 128 + c % 64]
  else [240 + c / 262144, 128 + c / 4096 % 64, 128 + c / 64 % 64, 128 + c % 64]

/-- The bytes of a C string literal (without the terminating NUL). -/
def lit (s : String) : List Nat :=
  s.toList.flatMap (fun c => utf8Enc c.toNat)

/-- The C string stored at the start of a byte sequence: the bytes before the first NUL. -/
def cstr (s : List Nat) : List Nat :=
  s.takeWhile (fun c => c != 0)

/-- `strlen`. -/
def strlen (s : List Nat) : Nat :=
  (cstr s).length

/-- Conversion `%d` / `%zu` of a non-negative number: its decimal digits as ASCII bytes. -/
def decimal (n : Nat) : List Nat :=
  (Nat.toDigits 10 n).map Char.toNat

/-! ## The read loop of `handle_client` -/

/-- One call of `read(client_fd, req + total, sizeof(req) - total)` as seen by the loop. -/
inductive ReadEvent where
  /-- The call fails with `errno == EINTR`. -/
  | eintr : ReadEvent
  /-- The call fails with another `errno`. -/
  | error : ReadEvent
  /-- The bytes the connection has ready: the call returns as many of them as fit in the
  requested length; with no byte ready the peer has closed and the call returns `0`. -/
  | data : List Nat → ReadEvent
  deriving DecidableEq

/-- The test of line 135 at index `i`: `req[i-3..i]` is CR LF CR LF.  Bytes of the
zero-initialised buffer that were never written read as `0`. -/
def term_at (req : List Nat) (i : Nat) : Bool :=
  req.getD (i - 3) 0 == 13 && req.getD (i - 2) 0 == 10 &&
    req.getD (i - 1) 0 == 13 && req.getD i 0 == 10

/-- The `for (ssize_t i = 3; i < total; ++i)` loop of lines 134-139, started at index `i`
with `fuel` iterations left; the result is the value assigned to `header_end`. -/
def scan_from (req : List Nat) (total : Nat) : Nat → Nat → Option Nat
  | _, 0 => none
  | i, fuel + 1 =>
    if i < total then
      if term_at req i then some (i + 1) else scan_from req total (i + 1) fuel
    else none

/-- The terminator scan of lines 134-139 over `req[0 .. total)`; `total - 3` iterations
bring `i` from `3` to `total`. -/
def scan (req : List Nat) (total : Nat) : Option Nat :=
  scan_from req total 3 (total - 3)

/-- How the read loop of lines 123-142 ends. -/
inductive LoopResult where
  /-- A read failed with an error other than `EINTR`: `perror("read"); return;`. -/
  | aborted : LoopResult
  /-- The loop was left; `req` holds the `total = req.length` bytes read so far and
  `header_end` is `none` for the C value `-1`. -/
  | done (req : List Nat) (header_end : Option Nat) : LoopResult
  deriving DecidableEq

/-- The `while (total < (ssize_t)sizeof(req))` loop of lines 123-142.  The first argument
lists what the successive `read` calls meet; when it is used up the peer has closed and
`read` returns `0`.  The second argument is `req[0 .. total)`. -/
def read_loop : List ReadEvent → List Nat → LoopResult
  | [], req => LoopResult.done req none
  | ReadEvent.eintr :: rest, req =>
    if req.length < REQ_MAX then read_loop rest req else LoopResult.done req none
  | ReadEvent.error :: _, req =>
    if req.length < REQ_MAX then LoopResult.aborted else LoopResult.done req none
  | ReadEvent.data bytes :: rest, req =>
    if req.length < REQ_MAX then
      let got := bytes.take (REQ_MAX - req.length)
      if got.length = 0 then LoopResult.done req none
      else
        match scan (req ++ got) (req ++ got).length with
        | some e => LoopResult.done (req ++ got) (some e)
        | none => read_loop rest (req ++ got)
    else LoopResult.done req none

/-! ## Request-line parsing -/

/-- Test whether `needle` is a prefix of `hay` (the inner comparison of `strstr`). -/
def starts_with : List Nat → List Nat → Bool
  | _, [] => true
  | [], _ :: _ => false
  | h :: hs, n :: ns => h == n && starts_with hs ns

/-- Offset of the first occurrence of `needle` in `hay`, counted from `i`. -/
def find_from (needle : List Nat) : List Nat → Nat → Option Nat
  | [], i => if starts_with [] needle then some i else none
  | h :: hs, i => if starts_with (h :: hs) needle then some i else find_from needle hs (i + 1)

/-- `strstr(hay, needle)`: the offset of the first occurrence of `needle` in the C string
at `hay`, `none` for `NULL`. -/
def strstr (hay needle : List Nat) : Option Nat :=
  find_from needle (cstr hay) 0

/-- `isspace` in the "C" locale: space, `\t`, `\n`, `\v`, `\f`, `\r`. -/
def isspace (c : Nat) : Bool :=
  c == 32 || (9 ≤ c && c ≤ 13)

/-- One `%Ns` conversion of `sscanf` with field width `w`: skip white space, then store the
longest run of at most `w` non-white-space bytes.  The result is the stored string and the
unread input; `none` when the input ends before a byte is stored. -/
def scan_s (w : Nat) (input : List Nat) : Option (List Nat × List Nat) :=
  let s := input.dropWhile isspace
  let tok := (s.takeWhile (fun c => !isspace c)).take w
  if tok.length = 0 then none else some (tok, s.drop tok.length)

/-- The fields of a parsed request line. -/
structure RequestLine where
  method : List Nat
  path : List Nat
  version : List Nat
  deriving DecidableEq

/-- `sscanf(line, "%15s %1023s %15s", method, path, version)` on the C string `line`:
`some` of the three stored strings when the call returns `3`, `none` otherwise.  (The
blanks of the format skip white space, which the following `%s` skips anyway.) -/
def sscanf_request (line : List Nat) : Option RequestLine :=
  match scan_s 15 (cstr line) with
  | none => none
  | some (method, r1) =>
    match scan_s 1023 r1 with
    | none => none
    | some (path, r2) =>
      match scan_s 15 r2 with
      | none => none
      | some (version, _) => some ⟨method, path, version⟩

/-- Lines 164-168: the first `line_len` bytes of `req` copied into `line[LINE_MAX]`, where
`line_len` is the offset of the first CR LF capped at `LINE_MAX - 1`. -/
def copy_line (req : List Nat) (first_crlf : Nat) : List Nat :=
  let line_len := if first_crlf ≥ LINE_MAX then LINE_MAX - 1 else first_crlf
  req.take line_len

/-! ## Responses -/

/-- The arguments of one call of `send_response` (the descriptor `fd` apart); `reason`,
`content_type` and `body` are the C strings the pointers refer to. -/
structure Response where
  status : Nat
  reason : List Nat
  content_type : List Nat
  body : List Nat
  deriving DecidableEq

/-- `snprintf(buf, size, ...)`, given the bytes the format expands to: the string left in
`buf` (at most `size - 1` bytes, NUL-terminated) and the returned count, which is the
length of the untruncated expansion. -/
def snprintf (size : Nat) (expansion : List Nat) : List Nat × Nat :=
  (expansion.take (size - 1), expansion.length)

/-- The expansion of the header format of `send_response` (lines 30-36). -/
def header_text (status : Nat) (reason content_type : List Nat) (body_len : Nat) : List Nat :=
  lit "HTTP/1.1 " ++ decimal status ++ lit " " ++ cstr reason ++ lit "\r\n" ++
  lit "Content-Type: " ++ cstr content_type ++ lit "\r\n" ++
  lit "Content-Length: " ++ decimal body_len ++ lit "\r\n" ++
  lit "Connection: close\r\n" ++
  lit "Server: mini-c-http/0.1\r\n" ++
  lit "\r\n"

/-- Function `send_response` (lines 24-41): the bytes handed to `write` on the connection,
header first, then the body when it is not empty.  `write(fd, header, n)` takes `n` bytes
from `header[512]`, which holds the truncated expansion and its NUL; the result is `none`
when `n` exceeds the buffer (`snprintf` does not fail on this format, so `n < 0` does not
occur). -/
def send_response (r : Response) : Option (List Nat) :=
  let body_len := strlen r.body
  let (header, n) := snprintf 512 (header_text r.status r.reason r.content_type body_len)
  if n ≤ 512 then
    some ((header ++ [0]).take n ++ (if body_len > 0 then (cstr r.body).take body_len else []))
  else none

/-- The call of `send_response` made by `page_index` (lines 44-55). -/
def page_index : Response :=
  { status := 200
    reason := lit "OK"
    content_type := lit "text/html; charset=utf-8"
    body :=
      lit "<!doctype html><html><head><meta charset='utf-8'><title>Index</title></head>" ++
      lit "<body style='font-family: sans-serif'>" ++
      lit "<h1>Mini C HTTP Server</h1>" ++
      lit "<ul>" ++
      lit "<li><a href='/hello'>/hello</a></li>" ++
      lit "<li><a href='/time'>/time</a></li>" ++
      lit "</ul>" ++
      lit "</body></html>" }

/-- The call of `send_response` made by `page_hello` (lines 57-66). -/
def page_hello : Response :=
  { status := 200
    reason := lit "OK"
    content_type := lit "text/html; charset=utf-8"
    body :=
      lit "<!doctype html><html><head><meta charset='utf-8'><title>Hello</title></head>" ++
      lit "<body style='font-family: sans-serif'>" ++
      lit "<h1>Hello from C!</h1>" ++
      lit "<p>这是 /hello 页面。</p>" ++
      lit "<p><a href='/'>返回首页</a></p>" ++
      lit "</body></html>" }

/-- The call of `send_response` made by `page_time` (lines 68-83).  The argument is the
content of `timestr[128]` after lines 69-72: all NUL when `localtime` fails, else the
NUL-terminated string of at most 127 bytes that `strftime` stores. -/
def page_time (timestr : List Nat) : Response :=
  let shown := if (timestr.take 127).headD 0 != 0 then cstr (timestr.take 127) else lit "unknown"
  { status := 200
    reason := lit "OK"
    content_type := lit "text/html; charset=utf-8"
    body := (snprintf 512 (
      lit "<!doctype html><html><head><meta charset='utf-8'><title>Time</title></head>" ++
      lit "<body style='font-family: sans-serif'>" ++
      lit "<h1>当前时间</h1>" ++
      lit "<p>" ++ shown ++ lit "</p>" ++
      lit "<p><a href='/'>返回首页</a></p>" ++
      lit "</body></html>")).1 }

/-- The call of `send_response` made by `page_404` (lines 85-95). -/
def page_404 (path : List Nat) : Response :=
  { status := 404
    reason := lit "Not Found"
    content_type := lit "text/html; charset=utf-8"
    body := (snprintf 512 (
      lit "<!doctype html><html><head><meta charset='utf-8'><title>404</title></head>" ++
      lit "<body style='font-family: sans-serif'>" ++
      lit "<h1>404 Not Found</h1>" ++
      lit "<p>Path: " ++ cstr path ++ lit "</p>" ++
      lit "<p><a href='/'>返回首页</a></p>" ++
      lit "</body></html>")).1 }

/-- The call of `send_response` made by `page_405` (lines 97-107). -/
def page_405 (method : List Nat) : Response :=
  { status := 405
    reason := lit "Method Not Allowed"
    content_type := lit "text/html; charset=utf-8"
    body := (snprintf 256 (
      lit "<!doctype html><html><head><meta charset='utf-8'><title>405</title></head>" ++
      lit "<body style='font-family: sans-serif'>" ++
      lit "<h1>405 Method Not Allowed</h1>" ++
      lit "<p>Method: " ++ cstr method ++ lit "</p>" ++
      lit "<p>Only GET is supported.</p>" ++
      lit "</body></html>")).1 }

/-- The 400 response sent at lines 151, 159 and 172. -/
def bad_request : Response :=
  { status := 400
    reason := lit "Bad Request"
    content_type := lit "text/html; charset=utf-8"
    body := lit "<h1>400 Bad Request</h1>" }

/-- The 204 response sent at line 189. -/
def no_content : Response :=
  { status := 204
    reason := lit "No Content"
    content_type := lit "text/plain"
    body := lit "" }

/-- `strcmp(a, b) == 0`. -/
def strcmp_eq (a b : List Nat) : Bool :=
  cstr a == cstr b

/-! ## `handle_client` -/

/-- Lines 181-202: the method check and the routing, on the strings stored by `sscanf`. -/
def route (timestr : List Nat) (method path : List Nat) : Response :=
  if !strcmp_eq method (lit "GET") then page_405 method
  else if strcmp_eq path (lit "/favicon.ico") then no_content
  else if strcmp_eq path (lit "/") || strcmp_eq path (lit "/index.html") then page_index
  else if strcmp_eq path (lit "/hello") then page_hello
  else if strcmp_eq path (lit "/time") then page_time timestr
  else page_404 path

/-- Lines 149-202: what `handle_client` does once the read loop has been left with
`req[0 .. total)` and `header_end`. -/
def respond (timestr : List Nat) (req : List Nat) (header_end : Option Nat) : Response :=
  match header_end with
  | none => bad_request
  | some _ =>
    match strstr req (lit "\r\n") with
    | none => bad_request
    | some first_crlf =>
      match sscanf_request (copy_line req first_crlf) with
      | none => bad_request
      | some parsed => route timestr parsed.method parsed.path

/-- Lines 123-202 of `handle_client`, the part behind the `printf` of line 121: the calls
of `send_response` it makes, in order.  `reads` is what the successive `read` calls meet
and `timestr` what the clock calls of `page_time` leave in its buffer. -/
def handle_client_body (reads : List ReadEvent) (timestr : List Nat) : List Response :=
  match read_loop reads [] with
  | LoopResult.aborted => []
  | LoopResult.done req header_end => [respond timestr req header_end]

/-- The bytes written on the connection by a sequence of `send_response` calls. -/
def write_all : List Response → Option (List Nat)
  | [] => some []
  | r :: rs =>
    match send_response r, write_all rs with
    | some a, some b => some (a ++ b)
    | _, _ => none

/-- The bytes lines 123-202 of `handle_client` write on the connection. -/
def handle_client_body_output (reads : List ReadEvent) (timestr : List Nat) :
    Option (List Nat) :=
  write_all (handle_client_body reads timestr)

/-- Line 121, `printf("yzt client http request:\n%s\n", client_fd)`: the `int` `client_fd`
is handed to a `%s` conversion, which reads a string at the address it is given (undefined
behaviour).  The value `0` is a null pointer, which the C library prints as `(null)`; every
other descriptor value is an address in the unmapped first pages of the process, and
reading it faults (SIGSEGV).  The result is `true` when the call returns. -/
def printf_client_fd (client_fd : Nat) : Bool :=
  client_fd == 0

/-- How a call of `handle_client` ends. -/
inductive Outcome where
  /-- Line 121 faults: the process is killed before the first `read`; nothing is written
  on the connection. -/
  | fault : Outcome
  /-- The function returns, having made these `send_response` calls. -/
  | returned (calls : List Response) : Outcome
  deriving DecidableEq

/-- Function `handle_client` (lines 110-203), called with the descriptor `client_fd`. -/
def handle_client (client_fd : Nat) (reads : List ReadEvent) (timestr : List Nat) : Outcome :=
  if printf_client_fd client_fd then Outcome.returned (handle_client_body reads timestr)
  else Outcome.fault

/-- The `send_response` calls made before `handle_client` ends. -/
def Outcome.calls : Outcome → List Response
  | Outcome.fault => []
  | Outcome.returned calls => calls

/-- The bytes `handle_client` writes on the connection. -/
def handle_client_output (client_fd : Nat) (reads : List ReadEvent) (timestr : List Nat) :
    Option (List Nat) :=
  write_all (handle_client client_fd reads timestr).calls

/-! ## Vocabulary of the statements -/

/-- The header terminator CR LF CR LF starts at index `k` of `s`. -/
def TermAt (s : List Nat) (k : Nat) : Prop :=
  (s.drop k).take 4 = [13, 10, 13, 10]

instance (s : List Nat) (k : Nat) : Decidable (TermAt s k) :=
  inferInstanceAs (Decidable ((s.drop k).take 4 = [13, 10, 13, 10]))

/-- The line terminator CR LF starts at index `j` of `s`. -/
def CrlfAt (s : List Nat) (j : Nat) : Prop :=
  (s.drop j).take 2 = [13, 10]

instance (s : List Nat) (j : Nat) : Decidable (CrlfAt s j) :=
  inferInstanceAs (Decidable ((s.drop j).take 2 = [13, 10]))

/-- The header block of `s` is complete within the request buffer: a terminator starts at
some `k` and ends within the first `REQ_MAX` bytes. -/
def Complete (s : List Nat) : Prop :=
  ∃ k, k + 4 ≤ REQ_MAX ∧ TermAt s k

/-- The byte stream a sequence of reads delivers. -/
def stream_of : List ReadEvent → List Nat
  | [] => []
  | ReadEvent.data bytes :: rest => bytes ++ stream_of rest
  | _ :: rest => stream_of rest

/-- No read fails with an error other than `EINTR`. -/
def no_error : List ReadEvent → Bool
  | [] => true
  | ReadEvent.error :: _ => false
  | _ :: rest => no_error rest

/-- Every data-returning read has at least one byte ready (the peer closes only after the
last read of the sequence). -/
def no_early_close : List ReadEvent → Bool
  | [] => true
  | ReadEvent.data bytes :: rest => !bytes.isEmpty && no_early_close rest
  | _ :: rest => no_early_close rest

/-- The sequence `reads` is a delivery schedule of `stream`: the stream cut into non-empty
reads, with `EINTR` failures anywhere between them, and the peer closing at the end. -/
def Delivers (reads : List ReadEvent) (stream : List Nat) : Prop :=
  no_error reads = true ∧ no_early_close reads = true ∧ stream_of reads = stream

instance (reads : List ReadEvent) (stream : List Nat) : Decidable (Delivers reads stream) :=
  inferInstanceAs (Decidable (_ ∧ _ ∧ _))

/-- The value of `header_end` when the read loop is left (`none` for `-1`, also when the
function returns from inside the loop). -/
def LoopResult.header_end : LoopResult → Option Nat
  | LoopResult.aborted => none
  | LoopResult.done _ e => e

/-- The value of `total` when the read loop is left. -/
def LoopResult.total : LoopResult → Nat
  | LoopResult.aborted => 0
  | LoopResult.done req _ => req.length

/-- The request parser, lines 156-175: the three strings stored by `sscanf` from the first
line of `req`, or `none` when `strstr` finds no CR LF or `sscanf` does not return `3` (the
two places that answer 400). -/
def parse_request (req : List Nat) : Option RequestLine :=
  match strstr req (lit "\r\n") with
  | none => none
  | some first_crlf => sscanf_request (copy_line req first_crlf)

/-- The request parser in terms of `line`, the bytes of `req` before its first CR LF: a
NUL among them hides the CR LF from `strstr`; otherwise the first `LINE_MAX - 1` of them
are handed to `sscanf`. -/
def parse_line (line : List Nat) : Option RequestLine :=
  if 0 ∈ line then none else sscanf_request (line.take (LINE_MAX - 1))

/-- The response to a request whose first line is `line`. -/
def line_response (timestr line : List Nat) : Response :=
  match parse_line line with
  | none => bad_request
  | some parsed => route timestr parsed.method parsed.path

/-- The white-space-separated tokens of a line: its maximal runs of bytes that are not
white space. -/
def tokens : List Nat → List (List Nat)
  | [] => []
  | c :: cs =>
    if isspace c then tokens cs
    else if isspace (cs.headD 32) then [c] :: tokens cs
    else
      match tokens cs with
      | [] => [[c]]
      | t :: ts => (c :: t) :: ts

/-- A token of a request line: a non-empty byte string without white space and without
NUL. -/
def IsToken (t : List Nat) : Prop :=
  t ≠ [] ∧ (∀ c ∈ t, isspace c = false) ∧ 0 ∉ t

instance (t : List Nat) : Decidable (IsToken t) :=
  inferInstanceAs (Decidable (_ ∧ _ ∧ _))

/-- The number a client reads from a string of decimal digits. -/
def decimal_value (digits : List Nat) : Nat :=
  digits.foldl (fun v d => 10 * v + (d - 48)) 0

/-- The status, reason phrase and content type of the `send_response` calls in the source
(lines 54, 65, 82, 94, 106, 151, 159, 172 and 189). -/
def response_heads : List (Nat × List Nat × List Nat) :=
  [(200, lit "OK", lit "text/html; charset=utf-8"),
   (204, lit "No Content", lit "text/plain"),
   (400, lit "Bad Request", lit "text/html; charset=utf-8"),
   (404, lit "Not Found", lit "text/html; charset=utf-8"),
   (405, lit "Method Not Allowed", lit "text/html; charset=utf-8")]

/-! ## The accept loop of `main` -/

/-- What one call of `accept` (line 234) meets. -/
inductive AcceptEvent where
  /-- The call fails: `perror("accept"); continue;`. -/
  | failed : AcceptEvent
  /-- The call returns the descriptor `client_fd` of a connection, on which the reads of
  `handle_client` meet `reads`; `timestr` is what the clock gives during its handling. -/
  | connection (client_fd : Nat) (reads : List ReadEvent) (timestr : List Nat) : AcceptEvent

/-- The calls of the accept loop that concern a connection. -/
inductive MainStep where
  /-- Line 234: `accept` returned this descriptor (`none` for a failure). -/
  | accept (client_fd : Option Nat) : MainStep
  /-- A call `send_response(client_fd, ...)` made inside `handle_client(client_fd, &peer)`. -/
  | send_response (client_fd : Nat) (r : Response) : MainStep
  /-- Line 237: `close(client_fd)`. -/
  | close (client_fd : Nat) : MainStep
  /-- The process is killed by the fault of line 121, inside `handle_client`. -/
  | killed : MainStep
  deriving DecidableEq

/-- The `while (1)` loop of `main` (lines 232-238), run over the given results of
`accept`: the calls it makes, in order.  When `handle_client` faults the process is gone:
there is no `close` and no further `accept`. -/
def accept_loop : List AcceptEvent → List MainStep
  | [] => []
  | AcceptEvent.failed :: rest => MainStep.accept none :: accept_loop rest
  | AcceptEvent.connection client_fd reads timestr :: rest =>
    MainStep.accept (some client_fd) ::
      (match handle_client client_fd reads timestr with
      | Outcome.fault => [MainStep.killed]
      | Outcome.returned calls =>
        calls.map (MainStep.send_response client_fd) ++
          MainStep.close client_fd :: accept_loop rest)

/-- The resource discipline of the connection handle, checked along a sequence of calls.
The state is `none` while no connection is open and `some (fd, n)` while `fd` is open and
`n` responses have been sent on it: a connection is accepted only while none is open, a
response is sent only on the open connection and only as its first, `close` is called
only on the open connection, the process is not killed, and at the end no connection is
left open. -/
def released_once : Option (Nat × Nat) → List MainStep → Bool
  | none, [] => true
  | some _, [] => false
  | _, MainStep.killed :: _ => false
  | none, MainStep.accept none :: steps => released_once none steps
  | none, MainStep.accept (some fd) :: steps => released_once (some (fd, 0)) steps
  | some _, MainStep.accept _ :: _ => false
  | none, MainStep.send_response _ _ :: _ => false
  | some (fd, n), MainStep.send_response fd' _ :: steps =>
    fd' == fd && n == 0 && released_once (some (fd, n + 1)) steps
  | none, MainStep.close _ :: _ => false
  | some (fd, _), MainStep.close fd' :: steps => fd' == fd && released_once none steps

/-- A word of a request line: a non-empty byte string without white space. -/
def IsWord (t : List Nat) : Prop :=
  t ≠ [] ∧ ∀ c ∈ t, isspace c = false

instance (t : List Nat) : Decidable (IsWord t) :=
  inferInstanceAs (Decidable (_ ∧ _))

/-! ## The read loop, step by step -/

/-- The memory-relevant steps of the read loop. -/
inductive LoopStep where
  /-- Line 124: `read(client_fd, req + total, sizeof(req) - total)` is called with this
  `total` and this requested length. -/
  | read (total requested : Nat) : LoopStep
  /-- The call returned `n > 0` bytes, of `requested` asked for. -/
  | returned (requested n : Nat) : LoopStep
  /-- Line 135: the test is evaluated at index `i`, reading `req[i-3 .. i]`, while `total`
  bytes have been read. -/
  | test (total i : Nat) : LoopStep
  deriving DecidableEq

/-- The steps of the terminator scan `scan_from`. -/
def scan_steps (req : List Nat) (total : Nat) : Nat → Nat → List LoopStep
  | _, 0 => []
  | i, fuel + 1 =>
    if i < total then
      LoopStep.test total i ::
        (if term_at req i then [] else scan_steps req total (i + 1) fuel)
    else []

/-- The steps of the read loop `read_loop`, in order. -/
def read_loop_steps : List ReadEvent → List Nat → List LoopStep
  | [], req =>
    if req.length < REQ_MAX then [LoopStep.read req.length (REQ_MAX - req.length)] else []
  | ReadEvent.eintr :: rest, req =>
    if req.length < REQ_MAX then
      LoopStep.read req.length (REQ_MAX - req.length) :: read_loop_steps rest req
    else []
  | ReadEvent.error :: _, req =>
    if req.length < REQ_MAX then [LoopStep.read req.length (REQ_MAX - req.length)] else []
  | ReadEvent.data bytes :: rest, req =>
    if req.length < REQ_MAX then
      let got := bytes.take (REQ_MAX - req.length)
      LoopStep.read req.length (REQ_MAX - req.length) ::
        (if got.length = 0 then []
        else
          LoopStep.returned (REQ_MAX - req.length) got.length ::
            (scan_steps (req ++ got) (req ++ got).length 3 ((req ++ got).length - 3) ++
              (match scan (req ++ got) (req ++ got).length with
              | some _ => []
              | none => read_loop_steps rest (req ++ got))))
    else []

/-- The number of reads that returned data. -/
def data_reads (steps : List LoopStep) : Nat :=
  (steps.filter (fun s => match s with
    | LoopStep.returned _ _ => true
    | _ => false)).length

/-- The bounds a step has to respect: a read starts at `total ≤ REQ_MAX` and asks for
`REQ_MAX - total ≥ 1` bytes, so it stays inside `req`; it returns between 1 and the
requested number of bytes; a test at `i` has `3 ≤ i < total ≤ REQ_MAX`, so `req[i-3 .. i]`
lies inside the bytes read. -/
def step_in_bounds : LoopStep → Bool
  | LoopStep.read total requested =>
    total ≤ REQ_MAX && total + requested == REQ_MAX && 1 ≤ requested
  | LoopStep.returned requested n => 1 ≤ n && n ≤ requested
  | LoopStep.test total i => 3 ≤ i && i < total && total ≤ REQ_MAX

/-- The number of bytes the reads of a step sequence returned. -/
def bytes_returned : List LoopStep → Nat
  | [] => 0
  | LoopStep.returned _ n :: steps => n + bytes_returned steps
  | _ :: steps => bytes_returned steps

/-! ## Line 121 -/

/-- With any descriptor other than `0`, so with every descriptor `accept` returns in `main`
(descriptor `0` is open all along: it is the standard input or the listening socket),
`handle_client` faults at line 121, before the first `read`. -/
theorem handle_client_faults (client_fd : Nat) (h : client_fd ≠ 0) (reads : List ReadEvent)
    (timestr : List Nat) : handle_client client_fd reads timestr = Outcome.fault := by
  simp [handle_client, printf_client_fd, h]

theorem handle_client_returns (reads : List ReadEvent) (timestr : List Nat) :
    handle_client 0 reads timestr = Outcome.returned (handle_client_body reads timestr) := by
  simp [handle_client, printf_client_fd]

theorem handle_client_output_faults (client_fd : Nat) (h : client_fd ≠ 0)
    (reads : List ReadEvent) (timestr : List Nat) :
    handle_client_output client_fd reads timestr = some [] := by
  simp [handle_client_output, handle_client_faults client_fd h, Outcome.calls, write_all]

/-- The `send_response` calls of `handle_client` are calls of its lines 123-202. -/
theorem mem_body_of_calls {client_fd : Nat} {reads : List ReadEvent} {timestr : List Nat}
    {r : Response} (h : r ∈ (handle_client client_fd reads timestr).calls) :
    r ∈ handle_client_body reads timestr := by
  unfold handle_client at h
  split at h
  · exact h
  · simp [Outcome.calls] at h

theorem mem_body_of_emitted {reads : List ReadEvent} {timestr : List Nat} {r : Response}
    (h : r ∈ handle_client_body reads timestr ∨
      ∃ client_fd, r ∈ (handle_client client_fd reads timestr).calls) :
    r ∈ handle_client_body reads timestr := by
  rcases h with h | ⟨_, h⟩
  · exact h
  · exact mem_body_of_calls h

/-- Two runs whose lines 123-202 make the same calls end the same way and write the same
bytes, with any descriptor. -/
theorem handle_client_congr (client_fd : Nat) (reads reads' : List ReadEvent)
    (timestr timestr' : List Nat)
    (h : handle_client_body reads timestr = handle_client_body reads' timestr') :
    handle_client client_fd reads timestr = handle_client client_fd reads' timestr' ∧
      handle_client_output client_fd reads timestr =
        handle_client_output client_fd reads' timestr' := by
  unfold handle_client_output handle_client
  rw [h]
  exact ⟨rfl, rfl⟩

/-! ## The terminator scan -/

theorem take4_eq_iff (t : List Nat) (a b c d : Nat) :
    t.take 4 = [a, b, c, d] ↔
      t[0]? = some a ∧ t[1]? = some b ∧ t[2]? = some c ∧ t[3]? = some d := by
  rcases t with _ | ⟨x0, _ | ⟨x1, _ | ⟨x2, _ | ⟨x3, t⟩⟩⟩⟩ <;> simp

theorem termAt_iff (s : List Nat) (k : Nat) :
    TermAt s k ↔
      s[k]? = some 13 ∧ s[k + 1]? = some 10 ∧ s[k + 2]? = some 13 ∧ s[k + 3]? = some 10 := by
  unfold TermAt
  rw [take4_eq_iff]
  simp [List.getElem?_drop]

theorem termAt_length {s : List Nat} {k : Nat} (h : TermAt s k) : k + 4 ≤ s.length := by
  rw [termAt_iff] at h
  have h3 := h.2.2.2
  have : k + 3 < s.length := by
    by_contra hc
    rw [List.getElem?_eq_none (by omega)] at h3
    cases h3
  omega

theorem term_at_eq_true_iff (req : List Nat) (i : Nat) (hi : 3 ≤ i) (hlt : i < req.length) :
    term_at req i = true ↔ TermAt req (i - 3) := by
  rw [termAt_iff]
  have e1 : i - 3 + 1 = i - 2 := by omega
  have e2 : i - 3 + 2 = i - 1 := by omega
  have e3 : i - 3 + 3 = i := by omega
  rw [e1, e2, e3]
  have h0 : i - 3 < req.length := by omega
  have h1 : i - 2 < req.length := by omega
  have h2 : i - 1 < req.length := by omega
  simp [term_at, List.getD_eq_getElem?_getD, List.getElem?_eq_getElem, h0, h1, h2, hlt, and_assoc]

theorem scan_from_some (req : List Nat) (total : Nat) :
    ∀ (fuel i e : Nat), scan_from req total i fuel = some e →
      ∃ j, i ≤ j ∧ j < total ∧ e = j + 1 ∧ term_at req j = true ∧
        ∀ j', i ≤ j' → j' < j → term_at req j' = false := by
  intro fuel
  induction fuel with
  | zero => intro i e h; simp [scan_from] at h
  | succ n ih =>
    intro i e h
    unfold scan_from at h
    by_cases hlt : i < total
    · rw [if_pos hlt] at h
      by_cases ht : term_at req i = true
      · rw [if_pos ht] at h
        refine ⟨i, le_rfl, hlt, ?_, ht, ?_⟩
        · exact (Option.some.inj h).symm
        · intro j' h1 h2; omega
      · rw [if_neg ht] at h
        obtain ⟨j, hj1, hj2, hj3, hj4, hj5⟩ := ih (i + 1) e h
        refine ⟨j, by omega, hj2, hj3, hj4, ?_⟩
        intro j' h1 h2
        by_cases hji : j' = i
        · subst hji; simpa using ht
        · exact hj5 j' (by omega) h2
    · rw [if_neg hlt] at h; cases h

theorem scan_from_none (req : List Nat) (total : Nat) :
    ∀ (fuel i : Nat), total ≤ i + fuel → scan_from req total i fuel = none →
      ∀ j, i ≤ j → j < total → term_at req j = false := by
  intro fuel
  induction fuel with
  | zero => intro i hf _ j h1 h2; omega
  | succ n ih =>
    intro i hf h j h1 h2
    unfold scan_from at h
    have hlt : i < total := by omega
    rw [if_pos hlt] at h
    by_cases ht : term_at req i = true
    · rw [if_pos ht] at h; cases h
    · rw [if_neg ht] at h
      by_cases hji : j = i
      · subst hji; simpa using ht
      · exact ih (i + 1) (by omega) h j (by omega) h2

/-- The scan finds the end of the first terminator of the bytes read so far. -/
theorem scan_some {req : List Nat} {e : Nat} (h : scan req req.length = some e) :
    ∃ k, e = k + 4 ∧ TermAt req k ∧ ∀ j, j < k → ¬ TermAt req j := by
  obtain ⟨j, hj1, hj2, hj3, hj4, hj5⟩ := scan_from_some req req.length _ _ _ h
  refine ⟨j - 3, by omega, (term_at_eq_true_iff req j hj1 hj2).1 hj4, ?_⟩
  intro j' hlt hT
  have hlen := termAt_length hT
  have hf := hj5 (j' + 3) (by omega) (by omega)
  have ht := (term_at_eq_true_iff req (j' + 3) (by omega) (by omega)).2 (by simpa using hT)
  rw [hf] at ht
  cases ht

/-- The scan fails only when the bytes read so far hold no terminator. -/
theorem scan_none {req : List Nat} (h : scan req req.length = none) (k : Nat) :
    ¬ TermAt req k := by
  intro hT
  have hlen := termAt_length hT
  have hf := scan_from_none req req.length _ 3 (by omega) h (k + 3) (by omega) (by omega)
  have ht := (term_at_eq_true_iff req (k + 3) (by omega) (by omega)).2 (by simpa using hT)
  rw [hf] at ht
  cases ht

/-- A terminator that lies inside a prefix is a terminator of the whole, and conversely. -/
theorem termAt_take (s : List Nat) (n k : Nat) (h : k + 4 ≤ n) :
    TermAt (s.take n) k ↔ TermAt s k := by
  rw [termAt_iff, termAt_iff]
  simp [List.getElem?_take, show k < n by omega, show k + 1 < n by omega,
    show k + 2 < n by omega, show k + 3 < n by omega]

theorem termAt_take_imp {s : List Nat} {n k : Nat} (h : TermAt (s.take n) k) :
    TermAt s k ∧ k + 4 ≤ n := by
  have hlen := termAt_length h
  have hn : k + 4 ≤ n := by
    rw [List.length_take] at hlen
    omega
  exact ⟨(termAt_take s n k hn).1 h, hn⟩

theorem termAt_append_left (a b : List Nat) (k : Nat) (h : k + 4 ≤ a.length) :
    TermAt (a ++ b) k ↔ TermAt a k := by
  have := termAt_take (a ++ b) a.length k h
  rw [List.take_left] at this
  exact this.symm

/-! ## The read loop -/

theorem take_prefix_eq (acc bytes tail : List Nat) (m : Nat) :
    acc ++ bytes.take m = (acc ++ (bytes ++ tail)).take (acc ++ bytes.take m).length := by
  rw [List.length_append, List.take_append, List.length_take]
  congr 1
  rw [List.take_append_of_le_length (Nat.min_le_right _ _)]
  simp [List.take_eq_take]

theorem read_loop_full (reads : List ReadEvent) (acc : List Nat) (h : REQ_MAX ≤ acc.length) :
    read_loop reads acc = LoopResult.done acc none := by
  have hn : ¬ acc.length < REQ_MAX := by omega
  rcases reads with _ | ⟨ev, rest⟩
  · rfl
  · cases ev <;> simp [read_loop, hn]

/-- When the delivered stream holds a terminator that ends within the buffer, the loop is
left with `header_end` just behind the first one, and `req` is a prefix of the stream. -/
theorem read_loop_found (k : Nat) (hk : k + 4 ≤ REQ_MAX) :
    ∀ (reads : List ReadEvent) (acc : List Nat),
      no_error reads = true → no_early_close reads = true →
      (∀ j, ¬ TermAt acc j) →
      TermAt (acc ++ stream_of reads) k →
      (∀ j, j < k → ¬ TermAt (acc ++ stream_of reads) j) →
      ∃ n, k + 4 ≤ n ∧ n ≤ REQ_MAX ∧
        read_loop reads acc =
          LoopResult.done ((acc ++ stream_of reads).take n) (some (k + 4)) := by
  intro reads
  induction reads with
  | nil =>
    intro acc _ _ hacc hT _
    simp only [stream_of, List.append_nil] at hT
    exact absurd hT (hacc k)
  | cons ev rest ih =>
    intro acc hne hnc hacc hT hmin
    have hsmall : acc.length < REQ_MAX := by
      by_contra hc
      exact hacc k ((termAt_append_left acc _ k (by omega)).1 hT)
    cases ev with
    | eintr =>
      simp only [read_loop, if_pos hsmall]
      exact ih acc (by simpa [no_error] using hne) (by simpa [no_early_close] using hnc)
        hacc (by simpa [stream_of] using hT) (by simpa [stream_of] using hmin)
    | error => simp [no_error] at hne
    | data bytes =>
      simp only [no_early_close, Bool.and_eq_true, Bool.not_eq_true', List.isEmpty_eq_false] at hnc
      simp only [stream_of] at hT hmin
      have hgot : ¬ (bytes.take (REQ_MAX - acc.length)).length = 0 := by
        rw [List.length_take]
        have : 0 < bytes.length := List.length_pos.2 (by simpa using hnc.1)
        omega
      have hpre := take_prefix_eq acc bytes (stream_of rest) (REQ_MAX - acc.length)
      have hle : (acc ++ bytes.take (REQ_MAX - acc.length)).length ≤ REQ_MAX := by
        rw [List.length_append, List.length_take]; omega
      simp only [read_loop, if_pos hsmall, if_neg hgot, stream_of]
      cases hscan : scan (acc ++ bytes.take (REQ_MAX - acc.length))
          (acc ++ bytes.take (REQ_MAX - acc.length)).length with
      | some e =>
        obtain ⟨k', he, hT', hmin'⟩ := scan_some hscan
        have hlen' := termAt_length hT'
        rw [hpre] at hT'
        have hTs := (termAt_take_imp hT').1
        have hkk : k = k' := by
          rcases Nat.lt_trichotomy k k' with h | h | h
          · exfalso
            apply hmin' k h
            rw [hpre]
            exact (termAt_take _ _ k (by omega)).2 hT
          · exact h
          · exact absurd hTs (hmin k' h)
        subst hkk
        refine ⟨(acc ++ bytes.take (REQ_MAX - acc.length)).length, hlen', hle, ?_⟩
        simp only [he]
        rw [← hpre]
      | none =>
        simp only
        by_cases hcut : bytes.length ≤ REQ_MAX - acc.length
        · rw [List.take_of_length_le hcut]
          rw [List.take_of_length_le hcut] at hscan
          have := ih (acc ++ bytes) (by simpa [no_error] using hne) hnc.2
            (fun j => scan_none hscan j) (by simpa using hT) (by simpa using hmin)
          simpa using this
        · exfalso
          have hfull : (acc ++ bytes.take (REQ_MAX - acc.length)).length = REQ_MAX := by
            rw [List.length_append, List.length_take]; omega
          apply scan_none hscan k
          rw [hpre, hfull]
          exact (termAt_take _ _ k hk).2 hT

/-- When the first `REQ_MAX` bytes of the delivered stream hold no terminator and no read
fails fatally, the loop is left with `header_end` unset and at most `REQ_MAX` bytes read. -/
theorem read_loop_not_found :
    ∀ (reads : List ReadEvent) (acc : List Nat),
      no_error reads = true → acc.length ≤ REQ_MAX →
      (∀ k, ¬ TermAt ((acc ++ stream_of reads).take REQ_MAX) k) →
      ∃ req, read_loop reads acc = LoopResult.done req none ∧ req.length ≤ REQ_MAX := by
  intro reads
  induction reads with
  | nil => intro acc _ hlen _; exact ⟨acc, rfl, hlen⟩
  | cons ev rest ih =>
    intro acc hne hlen hno
    by_cases hsmall : acc.length < REQ_MAX
    · cases ev with
      | eintr =>
        simp only [read_loop, if_pos hsmall]
        exact ih acc (by simpa [no_error] using hne) hlen (by simpa [stream_of] using hno)
      | error => simp [no_error] at hne
      | data bytes =>
        simp only [stream_of] at hno
        have hpre := take_prefix_eq acc bytes (stream_of rest) (REQ_MAX - acc.length)
        have hle : (acc ++ bytes.take (REQ_MAX - acc.length)).length ≤ REQ_MAX := by
          rw [List.length_append, List.length_take]; omega
        simp only [read_loop, if_pos hsmall]
        by_cases hgot : (bytes.take (REQ_MAX - acc.length)).length = 0
        · rw [if_pos hgot]; exact ⟨acc, rfl, hlen⟩
        · rw [if_neg hgot]
          cases hscan : scan (acc ++ bytes.take (REQ_MAX - acc.length))
              (acc ++ bytes.take (REQ_MAX - acc.length)).length with
          | some e =>
            exfalso
            obtain ⟨k', he, hT', hmin'⟩ := scan_some hscan
            have hlen' := termAt_length hT'
            rw [hpre] at hT'
            have hTs := (termAt_take_imp hT').1
            exact hno k' ((termAt_take _ _ k' (by omega)).2 hTs)
          | none =>
            simp only
            by_cases hcut : bytes.length ≤ REQ_MAX - acc.length
            · rw [List.take_of_length_le hcut]
              have hl2 : (acc ++ bytes).length ≤ REQ_MAX := by
                rw [List.length_append]; omega
              exact ih (acc ++ bytes) (by simpa [no_error] using hne) hl2
                (by simpa using hno)
            · have hfull : REQ_MAX ≤ (acc ++ bytes.take (REQ_MAX - acc.length)).length := by
                rw [List.length_append, List.length_take]; omega
              rw [read_loop_full _ _ hfull]
              exact ⟨_, rfl, hle⟩
    · rw [read_loop_full _ _ (by omega)]
      exact ⟨acc, rfl, hlen⟩

/-! ## The first line: `strstr` and `copy_line` -/

theorem lit_crlf : lit "\r\n" = [13, 10] := by decide

theorem crlfAt_iff (s : List Nat) (j : Nat) :
    CrlfAt s j ↔ s[j]? = some 13 ∧ s[j + 1]? = some 10 := by
  unfold CrlfAt
  have key : ∀ t : List Nat, t.take 2 = [13, 10] ↔ t[0]? = some 13 ∧ t[1]? = some 10 := by
    intro t
    rcases t with _ | ⟨x0, _ | ⟨x1, t⟩⟩ <;> simp
  rw [key]
  simp [List.getElem?_drop]

theorem crlfAt_length {s : List Nat} {j : Nat} (h : CrlfAt s j) : j + 2 ≤ s.length := by
  rw [crlfAt_iff] at h
  have h1 := h.2
  have : j + 1 < s.length := by
    by_contra hc
    rw [List.getElem?_eq_none (by omega)] at h1
    cases h1
  omega

theorem crlfAt_take (s : List Nat) (n j : Nat) (h : j + 2 ≤ n) :
    CrlfAt (s.take n) j ↔ CrlfAt s j := by
  rw [crlfAt_iff, crlfAt_iff]
  simp [List.getElem?_take, show j < n by omega, show j + 1 < n by omega]

theorem termAt_crlfAt {s : List Nat} {k : Nat} (h : TermAt s k) : CrlfAt s k := by
  rw [termAt_iff] at h
  rw [crlfAt_iff]
  exact ⟨h.1, h.2.1⟩

theorem starts_with_crlf (t : List Nat) :
    starts_with t (lit "\r\n") = true ↔ t.take 2 = [13, 10] := by
  rw [lit_crlf]
  rcases t with _ | ⟨x0, _ | ⟨x1, t⟩⟩ <;> simp [starts_with]

theorem find_from_eq_some (needle : List Nat) :
    ∀ (s : List Nat) (i m : Nat),
      (∀ t, t < m → starts_with (s.drop t) needle = false) →
      starts_with (s.drop m) needle = true →
      find_from needle s i = some (i + m) := by
  intro s
  induction s with
  | nil =>
    intro i m hlt hm
    rcases m with _ | m
    · simpa [find_from] using hm
    · have := hlt 0 (by omega)
      simp only [List.drop_nil] at this hm
      rw [this] at hm
      cases hm
  | cons h hs ih =>
    intro i m hlt hm
    rcases m with _ | m
    · simp only [List.drop_zero] at hm
      simp [find_from, hm]
    · have h0 := hlt 0 (by omega)
      simp only [List.drop_zero] at h0
      simp only [find_from, h0, Bool.false_eq_true, if_false]
      rw [ih (i + 1) m (fun t ht => by simpa using hlt (t + 1) (by omega)) (by simpa using hm)]
      congr 1
      omega

theorem find_from_eq_none (needle : List Nat) :
    ∀ (s : List Nat) (i : Nat),
      (∀ t, starts_with (s.drop t) needle = false) → find_from needle s i = none := by
  intro s
  induction s with
  | nil =>
    intro i h
    have := h 0
    simp only [List.drop_nil] at this
    simp [find_from, this]
  | cons h hs ih =>
    intro i hall
    have h0 := hall 0
    simp only [List.drop_zero] at h0
    simp only [find_from, h0, Bool.false_eq_true, if_false]
    exact ih (i + 1) (fun t => by simpa using hall (t + 1))

theorem cstr_append_of_no_nul (a b : List Nat) (h : 0 ∉ a) : cstr (a ++ b) = a ++ cstr b := by
  unfold cstr
  rw [List.takeWhile_append_of_pos]
  intro x hx
  have : x ≠ 0 := fun h0 => h (h0 ▸ hx)
  simpa using this

theorem cstr_of_no_nul (a : List Nat) (h : 0 ∉ a) : cstr a = a := by
  have := cstr_append_of_no_nul a [] h
  simpa [cstr] using this

theorem cstr_initial (a : List Nat) : cstr a <+: a :=
  List.takeWhile_prefix _

theorem cstr_append_of_nul (a b : List Nat) (h : 0 ∈ a) : cstr (a ++ b) = cstr a := by
  induction a with
  | nil => cases h
  | cons x xs ih =>
    by_cases hx : x = 0
    · subst hx; simp [cstr]
    · have hm : 0 ∈ xs := by
        rcases List.mem_cons.1 h with h0 | h0
        · exact absurd h0.symm hx
        · exact h0
      have := ih hm
      simp only [cstr] at this ⊢
      simp [List.takeWhile_cons, hx, this]

theorem cstr_length_lt_of_nul (a : List Nat) (h : 0 ∈ a) : (cstr a).length < a.length := by
  induction a with
  | nil => cases h
  | cons x xs ih =>
    by_cases hx : x = 0
    · subst hx; simp [cstr]
    · have hm : 0 ∈ xs := by
        rcases List.mem_cons.1 h with h0 | h0
        · exact absurd h0.symm hx
        · exact h0
      have := ih hm
      simp only [cstr] at this ⊢
      simp [List.takeWhile_cons, hx, this]

theorem strstr_crlf_some (x : List Nat) (j : Nat) (hj : CrlfAt x j)
    (hmin : ∀ i, i < j → ¬ CrlfAt x i) (hnul : 0 ∉ x.take j) :
    strstr x (lit "\r\n") = some j := by
  have hlen := crlfAt_length hj
  have hsplit : x = x.take j ++ x.drop j := (List.take_append_drop j x).symm
  have hpre : cstr x <+: x := cstr_initial x
  have hlong : j + 2 ≤ (cstr x).length := by
    obtain ⟨y, hy⟩ : ∃ y, x.drop j = 13 :: 10 :: y := by
      unfold CrlfAt at hj
      rcases hd : x.drop j with _ | ⟨a, _ | ⟨b, y⟩⟩
      · rw [hd] at hj; simp at hj
      · rw [hd] at hj; simp at hj
      · rw [hd] at hj
        simp at hj
        exact ⟨y, by rw [hj.1, hj.2]⟩
    rw [hsplit, cstr_append_of_no_nul _ _ hnul, hy]
    simp [cstr, List.takeWhile_cons]
    omega
  have hc : cstr x = x.take (cstr x).length := List.prefix_iff_eq_take.1 hpre
  have h := find_from_eq_some (lit "\r\n") (cstr x) 0 j ?_ ?_
  · simpa [strstr] using h
  · intro t ht
    have hn := hmin t ht
    by_contra hc2
    apply hn
    have h2 : CrlfAt (cstr x) t := by
      simpa [starts_with_crlf] using hc2
    rw [hc] at h2
    exact (crlfAt_take x _ t (by omega)).1 h2
  · rw [starts_with_crlf]
    have h2 : CrlfAt (cstr x) j := by
      rw [hc]
      exact (crlfAt_take x _ j (by omega)).2 hj
    exact h2

theorem strstr_crlf_none (x : List Nat) (j : Nat)
    (hmin : ∀ i, i < j → ¬ CrlfAt x i) (hnul : 0 ∈ x.take j) :
    strstr x (lit "\r\n") = none := by
  have hsplit : x = x.take j ++ x.drop j := (List.take_append_drop j x).symm
  have hc : cstr x = cstr (x.take j) := by
    conv_lhs => rw [hsplit]
    exact cstr_append_of_nul _ _ hnul
  have hshort : (cstr x).length < j := by
    rw [hc]
    have := cstr_length_lt_of_nul _ hnul
    rw [List.length_take] at this
    omega
  have hcx : cstr x = x.take (cstr x).length := List.prefix_iff_eq_take.1 (cstr_initial x)
  unfold strstr
  apply find_from_eq_none
  intro t
  by_contra hc2
  have h2 : CrlfAt (cstr x) t := by
    simpa [starts_with_crlf] using hc2
  have hl := crlfAt_length h2
  rw [hcx] at h2
  exact hmin t (by omega) ((crlfAt_take x _ t (by omega)).1 h2)

theorem copy_line_eq (x : List Nat) (j : Nat) :
    copy_line x j = (x.take j).take (LINE_MAX - 1) := by
  unfold copy_line
  rw [List.take_take]
  by_cases h : j ≥ LINE_MAX
  · simp only [if_pos h]
    congr 1
    unfold LINE_MAX at h ⊢
    omega
  · simp only [if_neg h]
    congr 1
    unfold LINE_MAX at h ⊢
    omega

theorem respond_eq_parse (timestr req : List Nat) (e : Nat) :
    respond timestr req (some e) =
      match parse_request req with
      | none => bad_request
      | some parsed => route timestr parsed.method parsed.path := by
  unfold respond parse_request
  cases strstr req (lit "\r\n") with
  | none => rfl
  | some i => rfl

theorem parse_request_eq (x : List Nat) (j : Nat) (hj : CrlfAt x j)
    (hmin : ∀ i, i < j → ¬ CrlfAt x i) :
    parse_request x = parse_line (x.take j) := by
  unfold parse_request parse_line
  by_cases hnul : 0 ∈ x.take j
  · simp only [strstr_crlf_none x j hmin hnul, if_pos hnul]
  · simp only [strstr_crlf_some x j hj hmin hnul, if_neg hnul, copy_line_eq]

/-- For a stream with a complete header block, delivered without a fatal read error, the
parser result and the calls of `handle_client_body` are decided by the bytes before the first
CR LF. -/
theorem handle_client_parse (reads : List ReadEvent) (stream timestr : List Nat) (j : Nat)
    (hd : Delivers reads stream) (hc : Complete stream) (hj : CrlfAt stream j)
    (hmin : ∀ i, i < j → ¬ CrlfAt stream i) :
    ∃ req e, read_loop reads [] = LoopResult.done req (some e) ∧
      parse_request req = parse_line (stream.take j) ∧
      handle_client_body reads timestr = [line_response timestr (stream.take j)] := by
  obtain ⟨hne, hnc, hs⟩ := hd
  subst hs
  obtain ⟨k, hk, hT⟩ := hc
  have hex : ∃ k, TermAt (stream_of reads) k := ⟨k, hT⟩
  have hT0 := Nat.find_spec hex
  have hk0 : Nat.find hex ≤ k := Nat.find_min' hex hT
  obtain ⟨n, hn1, hn2, hrun⟩ := read_loop_found (Nat.find hex) (by omega) reads [] hne hnc
    (fun j h => by simp [TermAt] at h) (by simpa using hT0)
    (fun i hi => by simpa using Nat.find_min hex hi)
  simp only [List.nil_append] at hrun
  have hjk : j ≤ Nat.find hex := by
    by_contra hc
    exact hmin _ (by omega) (termAt_crlfAt hT0)
  have hparse : parse_request ((stream_of reads).take n) = parse_line ((stream_of reads).take j) := by
    rw [parse_request_eq _ j ((crlfAt_take _ n j (by omega)).2 hj)
      (fun i hi h => hmin i hi ((crlfAt_take _ n i (by omega)).1 h))]
    rw [List.take_take, Nat.min_eq_left (by omega)]
  refine ⟨_, _, hrun, hparse, ?_⟩
  unfold handle_client_body
  rw [hrun]
  simp only
  rw [respond_eq_parse, hparse]
  rfl

theorem handle_client_eq (reads : List ReadEvent) (stream timestr : List Nat) (j : Nat)
    (hd : Delivers reads stream) (hc : Complete stream) (hj : CrlfAt stream j)
    (hmin : ∀ i, i < j → ¬ CrlfAt stream i) :
    handle_client_body reads timestr = [line_response timestr (stream.take j)] := by
  obtain ⟨_, _, _, _, h⟩ := handle_client_parse reads stream timestr j hd hc hj hmin
  exact h

/-- For a stream whose first `REQ_MAX` bytes hold no terminator, delivered without a fatal
read error, `handle_client_body` sends the 400 response. -/
theorem handle_client_incomplete (reads : List ReadEvent) (timestr : List Nat)
    (hne : no_error reads = true)
    (hno : ∀ k, ¬ TermAt ((stream_of reads).take REQ_MAX) k) :
    handle_client_body reads timestr = [bad_request] := by
  obtain ⟨req, hrun, _⟩ := read_loop_not_found reads [] hne (by simp)
    (by simpa using hno)
  unfold handle_client_body
  rw [hrun]
  rfl

theorem framer_found (reads : List ReadEvent) (stream : List Nat) (k : Nat)
    (hd : Delivers reads stream) (hk : k + 4 ≤ REQ_MAX) (hT : TermAt stream k)
    (hmin : ∀ j, j < k → ¬ TermAt stream j) :
    ∃ req, read_loop reads [] = LoopResult.done req (some (k + 4)) ∧
      req.take (k + 4) = stream.take (k + 4) ∧ req <+: stream ∧
      4 ≤ k + 4 ∧ k + 4 ≤ req.length ∧ req.length ≤ REQ_MAX := by
  obtain ⟨hne, hnc, hs⟩ := hd
  subst hs
  obtain ⟨n, hn1, hn2, hrun⟩ := read_loop_found k hk reads [] hne hnc
    (fun j h => by simp [TermAt] at h) (by simpa using hT) (by simpa using hmin)
  simp only [List.nil_append] at hrun
  have hlen := termAt_length hT
  refine ⟨_, hrun, ?_, List.take_prefix _ _, by omega, ?_, ?_⟩
  · rw [List.take_take, Nat.min_eq_left hn1]
  · rw [List.length_take]; omega
  · rw [List.length_take]; omega

theorem not_complete_take {s : List Nat} (h : ¬ Complete s) (k : Nat) :
    ¬ TermAt (s.take REQ_MAX) k := by
  intro hT
  obtain ⟨h1, h2⟩ := termAt_take_imp hT
  exact h ⟨k, h2, h1⟩

theorem not_complete_of_bounded {s : List Nat} (h : ∀ k, k < s.length → ¬ TermAt s k) :
    ¬ Complete s := by
  rintro ⟨k, _, hT⟩
  have hlen := termAt_length hT
  exact h k (by omega) hT

theorem bad_request_wire :
    send_response bad_request = some (lit "HTTP/1.1 400 Bad Request\r\nContent-Type: text/html; charset=utf-8\r\nContent-Length: 24\r\nConnection: close\r\nServer: mini-c-http/0.1\r\n\r\n<h1>400 Bad Request</h1>") := by
  decide

theorem loop_agrees_with_single_read (reads : List ReadEvent) (stream timestr : List Nat)
    (hd : Delivers reads stream) :
    (read_loop reads []).header_end = (read_loop [ReadEvent.data stream] []).header_end ∧
      handle_client_body reads timestr = handle_client_body [ReadEvent.data stream] timestr := by
  by_cases hc : Complete stream
  · have hc' := hc
    obtain ⟨k, hk, hT⟩ := hc'
    have hne : stream ≠ [] := by
      intro h; subst h; simp [TermAt] at hT
    have hd1 : Delivers [ReadEvent.data stream] stream := by
      refine ⟨rfl, ?_, by simp [stream_of]⟩
      simp [no_early_close, hne]
    have hex : ∃ k, TermAt stream k := ⟨k, hT⟩
    have hT0 := Nat.find_spec hex
    have hk0 : Nat.find hex ≤ k := Nat.find_min' hex hT
    have hexj : ∃ j, CrlfAt stream j := ⟨k, termAt_crlfAt hT⟩
    constructor
    · obtain ⟨r1, h1, _⟩ := framer_found reads stream (Nat.find hex) hd (by omega) hT0
        (fun i hi => Nat.find_min hex hi)
      obtain ⟨r2, h2, _⟩ := framer_found _ stream (Nat.find hex) hd1 (by omega) hT0
        (fun i hi => Nat.find_min hex hi)
      rw [h1, h2]
      rfl
    · rw [handle_client_eq reads stream timestr (Nat.find hexj) hd hc (Nat.find_spec hexj)
          (fun i hi => Nat.find_min hexj hi),
        handle_client_eq _ stream timestr (Nat.find hexj) hd1 hc (Nat.find_spec hexj)
          (fun i hi => Nat.find_min hexj hi)]
  · obtain ⟨hne, _, hs⟩ := hd
    subst hs
    have hno := not_complete_take hc
    have hno1 : ∀ k, ¬ TermAt ((stream_of [ReadEvent.data (stream_of reads)]).take REQ_MAX) k := by
      simpa [stream_of] using hno
    constructor
    · obtain ⟨r1, h1, _⟩ := read_loop_not_found reads [] hne (by simp) (by simpa using hno)
      obtain ⟨r2, h2, _⟩ := read_loop_not_found [ReadEvent.data (stream_of reads)] [] rfl
        (by simp) (by simpa using hno1)
      rw [h1, h2]
      rfl
    · rw [handle_client_incomplete reads timestr hne hno,
        handle_client_incomplete [ReadEvent.data (stream_of reads)] timestr rfl hno1]

/-! ## Framing -/

/-- C1, the code at a failing input.  On descriptor 4 the request `GET / HTTP/1.1` arrives
in three reads around an `EINTR`, its first terminator at index 14: `handle_client` faults
at line 121, no read is made and nothing is written, so its read loop does not end with
`header_end = 18`: it is never entered.  Lines 123-142 alone would end with
`header_end = 14 + 4` and the 22 bytes of the stream in `req` (`framer_found`). -/
theorem framer_never_reached :
    handle_client 4 [ReadEvent.data (lit "GET / HT"), ReadEvent.eintr,
        ReadEvent.data (lit "TP/1.1\r\n\r"), ReadEvent.data (lit "\nrest")] [] =
      Outcome.fault ∧
    handle_client_output 4 [ReadEvent.data (lit "GET / HT"), ReadEvent.eintr,
        ReadEvent.data (lit "TP/1.1\r\n\r"), ReadEvent.data (lit "\nrest")] [] = some [] ∧
    TermAt (lit "GET / HTTP/1.1\r\n\r\nrest") 14 ∧
    read_loop [ReadEvent.data (lit "GET / HT"), ReadEvent.eintr,
        ReadEvent.data (lit "TP/1.1\r\n\r"), ReadEvent.data (lit "\nrest")] [] =
      LoopResult.done (lit "GET / HTTP/1.1\r\n\r\nrest") (some (14 + 4)) := by
  decide

/-- C2 (read-boundary independence).  Any two delivery schedules of one byte stream (any
split into non-empty reads, with `EINTR` failures between them) leave the read loop with
the same `header_end` as the delivery in a single read, and lines 123-202 make the same
`send_response` calls and write the same bytes for all three; so `handle_client`, with
any descriptor, ends the same way and writes the same bytes for all three. -/
theorem read_boundary_independent (reads₁ reads₂ : List ReadEvent) (stream timestr : List Nat)
    (h₁ : Delivers reads₁ stream) (h₂ : Delivers reads₂ stream) :
    (read_loop reads₁ []).header_end = (read_loop [ReadEvent.data stream] []).header_end ∧
    (read_loop reads₂ []).header_end = (read_loop [ReadEvent.data stream] []).header_end ∧
    handle_client_body reads₁ timestr = handle_client_body [ReadEvent.data stream] timestr ∧
    handle_client_body reads₂ timestr = handle_client_body [ReadEvent.data stream] timestr ∧
    handle_client_body_output reads₁ timestr =
      handle_client_body_output [ReadEvent.data stream] timestr ∧
    handle_client_body_output reads₂ timestr =
      handle_client_body_output [ReadEvent.data stream] timestr ∧
    (∀ client_fd,
      handle_client client_fd reads₁ timestr =
        handle_client client_fd [ReadEvent.data stream] timestr ∧
      handle_client client_fd reads₂ timestr =
        handle_client client_fd [ReadEvent.data stream] timestr ∧
      handle_client_output client_fd reads₁ timestr =
        handle_client_output client_fd [ReadEvent.data stream] timestr ∧
      handle_client_output client_fd reads₂ timestr =
        handle_client_output client_fd [ReadEvent.data stream] timestr) := by
  obtain ⟨a1, b1⟩ := loop_agrees_with_single_read reads₁ stream timestr h₁
  obtain ⟨a2, b2⟩ := loop_agrees_with_single_read reads₂ stream timestr h₂
  refine ⟨a1, a2, b1, b2, ?_, ?_, ?_⟩
  · unfold handle_client_body_output; rw [b1]
  · unfold handle_client_body_output; rw [b2]
  · intro client_fd
    obtain ⟨c1, d1⟩ := handle_client_congr client_fd _ _ _ _ b1
    obtain ⟨c2, d2⟩ := handle_client_congr client_fd _ _ _ _ b2
    exact ⟨c1, c2, d1, d2⟩

/-- An instance of C2: a request delivered one byte per read, and in two reads, is answered
as when it is delivered in a single read. -/
theorem read_boundary_independent_witness :
    Delivers [ReadEvent.data [71], ReadEvent.data [69], ReadEvent.eintr, ReadEvent.data [84],
        ReadEvent.data [32], ReadEvent.data [47], ReadEvent.data [32], ReadEvent.data [120],
        ReadEvent.data [13], ReadEvent.data [10], ReadEvent.eintr, ReadEvent.eintr,
        ReadEvent.data [13], ReadEvent.data [10]] (lit "GET / x\r\n\r\n") ∧
    Delivers [ReadEvent.eintr, ReadEvent.data (lit "GET / x\r\n"), ReadEvent.data (lit "\r\n")]
        (lit "GET / x\r\n\r\n") ∧
    handle_client_body_output [ReadEvent.data [71], ReadEvent.data [69], ReadEvent.eintr,
        ReadEvent.data [84], ReadEvent.data [32], ReadEvent.data [47], ReadEvent.data [32],
        ReadEvent.data [120], ReadEvent.data [13], ReadEvent.data [10], ReadEvent.eintr,
        ReadEvent.eintr, ReadEvent.data [13], ReadEvent.data [10]] [] =
      handle_client_body_output [ReadEvent.data (lit "GET / x\r\n\r\n")] [] :=
  ⟨by decide, by decide,
    (read_boundary_independent
      [ReadEvent.data [71], ReadEvent.data [69], ReadEvent.eintr, ReadEvent.data [84],
        ReadEvent.data [32], ReadEvent.data [47], ReadEvent.data [32], ReadEvent.data [120],
        ReadEvent.data [13], ReadEvent.data [10], ReadEvent.eintr, ReadEvent.eintr,
        ReadEvent.data [13], ReadEvent.data [10]]
      [ReadEvent.eintr, ReadEvent.data (lit "GET / x\r\n"), ReadEvent.data (lit "\r\n")]
      (lit "GET / x\r\n\r\n") [] (by decide) (by decide)).2.2.2.2.1⟩

/-- Lines 123-202 on an incomplete header block.  When the first `REQ_MAX = 8192` bytes of
the delivered stream hold no complete terminator (the peer closes early, possibly after no
byte at all, or the buffer fills) and no read fails fatally, lines 123-202 make exactly one
`send_response` call, the 400 response: status line `HTTP/1.1 400 Bad Request`,
`Content-Type: text/html; charset=utf-8` and body `<h1>400 Bad Request</h1>`; and the
loop has read at most 8192 bytes. -/
theorem body_incomplete_gives_400 (reads : List ReadEvent) (timestr : List Nat)
    (hne : no_error reads = true) (hno : ¬ Complete (stream_of reads)) :
    handle_client_body reads timestr = [bad_request] ∧
    handle_client_body_output reads timestr = some (lit "HTTP/1.1 400 Bad Request\r\nContent-Type: text/html; charset=utf-8\r\nContent-Length: 24\r\nConnection: close\r\nServer: mini-c-http/0.1\r\n\r\n<h1>400 Bad Request</h1>") ∧
    (read_loop reads []).total ≤ REQ_MAX := by
  have hno' := not_complete_take hno
  have hcalls := handle_client_incomplete reads timestr hne hno'
  refine ⟨hcalls, ?_, ?_⟩
  · unfold handle_client_body_output
    rw [hcalls]
    simp only [write_all, bad_request_wire, List.append_nil]
  · obtain ⟨req, hrun, hlen⟩ := read_loop_not_found reads [] hne (by simp) (by simpa using hno')
    rw [hrun]
    exact hlen

/-- C3, the code at a failing input.  On descriptor 4 the peer sends the request line
`GET / HTTP/1.1` and closes, or closes without sending a byte: `handle_client` faults at
line 121 and writes nothing, no 400 response.  Lines 123-202 would have sent the 400
response (`body_incomplete_gives_400`). -/
theorem incomplete_request_faults :
    handle_client 4 [ReadEvent.data (lit "GET / HT"), ReadEvent.eintr,
        ReadEvent.data (lit "TP/1.1\r\n")] [] = Outcome.fault ∧
    handle_client_output 4 [ReadEvent.data (lit "GET / HT"), ReadEvent.eintr,
        ReadEvent.data (lit "TP/1.1\r\n")] [] = some [] ∧
    handle_client 4 [] [] = Outcome.fault ∧
    handle_client_output 4 [] [] = some [] ∧
    handle_client_body [ReadEvent.data (lit "GET / HT"), ReadEvent.eintr,
        ReadEvent.data (lit "TP/1.1\r\n")] [] = [bad_request] ∧
    handle_client_body [] [] = [bad_request] := by
  decide

/-! ## The `%s` conversions -/

theorem scan_s_skip (w c : Nat) (r : List Nat) (hc : isspace c = true) :
    scan_s w (c :: r) = scan_s w r := by
  simp [scan_s, List.dropWhile_cons, hc]

theorem dropWhile_isspace_of_head (t r : List Nat) (ht : t ≠ [])
    (hns : ∀ c ∈ t, isspace c = false) :
    (t ++ r).dropWhile isspace = t ++ r := by
  rcases t with _ | ⟨a, t⟩
  · exact absurd rfl ht
  · have := hns a (List.mem_cons_self _ _)
    simp [List.dropWhile_cons, this]

theorem takeWhile_nonspace_token (t r : List Nat) (hns : ∀ c ∈ t, isspace c = false)
    (hr : r = [] ∨ ∃ c r', r = c :: r' ∧ isspace c = true) :
    (t ++ r).takeWhile (fun c => !isspace c) = t := by
  rw [List.takeWhile_append_of_pos (by intro a ha; simp [hns a ha])]
  rcases hr with h | ⟨c, r', h, hc⟩
  · subst h; simp
  · subst h; simp [List.takeWhile_cons, hc]

/-- A `%s` conversion that meets a token stores its first `w` bytes and leaves the rest. -/
theorem scan_s_token (w : Nat) (t r : List Nat) (hw : 0 < w) (ht : t ≠ [])
    (hns : ∀ c ∈ t, isspace c = false)
    (hr : r = [] ∨ ∃ c r', r = c :: r' ∧ isspace c = true) :
    scan_s w (t ++ r) = some (t.take w, t.drop w ++ r) := by
  unfold scan_s
  simp only [dropWhile_isspace_of_head t r ht hns, takeWhile_nonspace_token t r hns hr]
  have hlen : 0 < t.length := List.length_pos.2 ht
  have hne : ¬ (t.take w).length = 0 := by
    rw [List.length_take]; omega
  rw [if_neg hne]
  congr 2
  rw [List.length_take]
  by_cases hle : w ≤ t.length
  · rw [Nat.min_eq_left hle, List.drop_append_of_le_length hle]
  · have hge : t.length ≤ w := by omega
    rw [Nat.min_eq_right hge, List.drop_of_length_le hge, List.drop_left]
    rfl

/-- A `%s` conversion succeeds as soon as the input starts with a byte that is not white
space, or with white space followed by one. -/
theorem scan_s_isSome (w : Nat) (s : List Nat) (hw : 0 < w)
    (h : ∃ c ∈ s, isspace c = false) : ∃ tok rest, scan_s w s = some (tok, rest) := by
  unfold scan_s
  obtain ⟨c, hc, hcs⟩ := h
  have hne : s.dropWhile isspace ≠ [] := by
    intro h0
    have := List.dropWhile_eq_nil_iff.1 h0 c hc
    rw [hcs] at this
    cases this
  rcases hd : s.dropWhile isspace with _ | ⟨a, s1⟩
  · exact absurd hd hne
  · have ha : isspace a = false := by
      have := List.head_dropWhile_not isspace s (by rw [hd]; simp)
      simpa [hd] using this
    have hlen : ¬ (((a :: s1).takeWhile (fun c => !isspace c)).take w).length = 0 := by
      rw [List.length_take]
      simp [List.takeWhile_cons, ha]
      omega
    simp only [if_neg hlen]
    exact ⟨_, _, rfl⟩

theorem scan_s_stored {w : Nat} {s tok rest : List Nat} (h : scan_s w s = some (tok, rest)) :
    tok ≠ [] ∧ tok.length ≤ w ∧ (∀ c ∈ tok, isspace c = false) ∧ (∀ c ∈ tok, c ∈ s) ∧
      (∀ c ∈ rest, c ∈ s) := by
  unfold scan_s at h
  simp only at h
  split at h
  · cases h
  · rename_i hlen
    simp only [Option.some.injEq, Prod.mk.injEq] at h
    obtain ⟨h1, h2⟩ := h
    refine ⟨?_, ?_, ?_, ?_, ?_⟩
    · intro h0; rw [← h1] at h0; exact hlen (by rw [h0]; rfl)
    · rw [← h1, List.length_take]; omega
    · intro c hc
      rw [← h1] at hc
      have := List.mem_takeWhile_imp (List.mem_of_mem_take hc)
      simpa using this
    · intro c hc
      rw [← h1] at hc
      exact (List.dropWhile_sublist _).subset
        ((List.takeWhile_sublist _).subset (List.mem_of_mem_take hc))
    · intro c hc
      rw [← h2] at hc
      exact (List.dropWhile_sublist _).subset (List.mem_of_mem_drop hc)

/-! ## Tokens and `sscanf` -/

theorem drop_length_takeWhile (p : Nat → Bool) (l : List Nat) :
    l.drop (l.takeWhile p).length = l.dropWhile p := by
  induction l with
  | nil => rfl
  | cons a l ih =>
    by_cases h : p a = true
    · simp [List.takeWhile_cons, List.dropWhile_cons, h, ih]
    · simp [List.takeWhile_cons, List.dropWhile_cons, h]

/-- The tokens of a line, read off from the left: skip white space, take the run of
other bytes, go on behind it. -/
theorem tokens_eq (s : List Nat) :
    tokens s =
      if s.dropWhile isspace = [] then []
      else (s.dropWhile isspace).takeWhile (fun c => !isspace c) ::
        tokens ((s.dropWhile isspace).dropWhile (fun c => !isspace c)) := by
  induction s with
  | nil => simp [tokens]
  | cons c cs ih =>
    by_cases hc : isspace c = true
    · simp only [tokens, hc, if_true, List.dropWhile_cons]
      exact ih
    · have hc' : isspace c = false := by simpa using hc
      simp only [tokens, hc', Bool.false_eq_true, if_false, List.dropWhile_cons,
        List.takeWhile_cons, Bool.not_false, if_true, Bool.not_eq_true', reduceCtorEq]
      rcases cs with _ | ⟨d, ds⟩
      · simp [isspace, tokens]
      · by_cases hd : isspace d = true
        · simp [List.headD, hd, List.takeWhile_cons, List.dropWhile_cons]
        · have hd' : isspace d = false := by simpa using hd
          simp only [List.headD_cons, hd', Bool.false_eq_true, if_false]
          rw [ih]
          simp [List.dropWhile_cons, hd', List.takeWhile_cons]

theorem scan_s_no_token (w : Nat) (s : List Nat) (h : tokens s = []) : scan_s w s = none := by
  rw [tokens_eq] at h
  by_cases h0 : s.dropWhile isspace = []
  · simp [scan_s, h0]
  · rw [if_neg h0] at h; cases h

/-- A `%s` conversion wide enough for the first token stores it and leaves the other
tokens. -/
theorem scan_s_first_token (w : Nat) (s t : List Nat) (ts : List (List Nat))
    (h : tokens s = t :: ts) (hw : t.length ≤ w) :
    t ≠ [] ∧ ∃ r, scan_s w s = some (t, r) ∧ tokens r = ts := by
  rw [tokens_eq] at h
  by_cases h0 : s.dropWhile isspace = []
  · rw [if_pos h0] at h; cases h
  · rw [if_neg h0] at h
    simp only [List.cons.injEq] at h
    obtain ⟨h1, h2⟩ := h
    have hne : t ≠ [] := by
      rcases hd : s.dropWhile isspace with _ | ⟨a, s1⟩
      · exact absurd hd h0
      · have ha : isspace a = false := by
          have := List.head_dropWhile_not isspace s (by rw [hd]; simp)
          simpa [hd] using this
        rw [hd] at h1
        rw [← h1]
        simp [List.takeWhile_cons, ha]
    refine ⟨hne, (s.dropWhile isspace).dropWhile (fun c => !isspace c), ?_, h2⟩
    unfold scan_s
    simp only [h1, List.take_of_length_le hw]
    have hlen : ¬ t.length = 0 := fun h => hne (List.length_eq_zero.1 h)
    rw [if_neg hlen, ← h1, drop_length_takeWhile]

theorem dropWhile_take (p : Nat → Bool) (l : List Nat) (n : Nat) :
    (l.take n).dropWhile p = (l.dropWhile p).take (n - (l.takeWhile p).length) := by
  induction l generalizing n with
  | nil => simp
  | cons a l ih =>
    rcases n with _ | n
    · simp
    · by_cases h : p a = true
      · simp [List.takeWhile_cons, List.dropWhile_cons, h, ih]
      · simp [List.takeWhile_cons, List.dropWhile_cons, h]

/-- A conversion that succeeds on a truncated input succeeds on the whole input, and
leaves there an extension of what it leaves on the truncated one. -/
theorem scan_s_take (w n : Nat) (s tok' rest' : List Nat)
    (h : scan_s w (s.take n) = some (tok', rest')) :
    ∃ tok rest m, scan_s w s = some (tok, rest) ∧ rest' = rest.take m := by
  unfold scan_s at h ⊢
  simp only at h ⊢
  rw [dropWhile_take] at h
  generalize s.dropWhile isspace = s1 at h ⊢
  generalize n - (s.takeWhile isspace).length = n1 at h
  rw [← List.take_takeWhile, List.take_take] at h
  split at h
  · cases h
  · rename_i hlen
    simp only [Option.some.injEq, Prod.mk.injEq] at h
    obtain ⟨_, h2⟩ := h
    have hlen2 : ¬ ((s1.takeWhile (fun c => !isspace c)).take w).length = 0 := by
      rw [List.length_take] at hlen ⊢
      omega
    rw [if_neg hlen2]
    refine ⟨_, _, ?_, rfl, ?_⟩
    · exact if w ≤ n1 ∨ (s1.takeWhile (fun c => !isspace c)).length ≤ n1 then
        n1 - ((s1.takeWhile (fun c => !isspace c)).take w).length else 0
    · rw [← h2]
      rw [List.length_take, List.length_take] at *
      by_cases hc : w ≤ n1 ∨ (s1.takeWhile (fun c => !isspace c)).length ≤ n1
      · rw [if_pos hc]
        have e : min (min w n1) (s1.takeWhile (fun c => !isspace c)).length =
            min w (s1.takeWhile (fun c => !isspace c)).length := by omega
        rw [e, List.drop_take]
      · rw [if_neg hc]
        have e : min (min w n1) (s1.takeWhile (fun c => !isspace c)).length = n1 := by omega
        rw [e, List.take_zero]
        apply List.drop_of_length_le
        rw [List.length_take]
        omega

theorem not_mem_take {s : List Nat} (h : 0 ∉ s) (n : Nat) : 0 ∉ s.take n :=
  fun hm => h (List.mem_of_mem_take hm)

/-- When `sscanf` returns `3` on a truncated line it returns `3` on the whole line. -/
theorem sscanf_request_take (s : List Nat) (n : Nat) (h0 : 0 ∉ s)
    (h : sscanf_request s = none) : sscanf_request (s.take n) = none := by
  unfold sscanf_request at h ⊢
  rw [cstr_of_no_nul _ (not_mem_take h0 n)]
  rw [cstr_of_no_nul _ h0] at h
  cases h1 : scan_s 15 (s.take n) with
  | none => rfl
  | some a1 =>
    obtain ⟨t1', r1'⟩ := a1
    obtain ⟨t1, r1, m1, e1, hr1⟩ := scan_s_take 15 n s t1' r1' h1
    rw [e1] at h
    simp only at h ⊢
    cases h2 : scan_s 1023 r1' with
    | none => rfl
    | some a2 =>
      obtain ⟨t2', r2'⟩ := a2
      rw [hr1] at h2
      obtain ⟨t2, r2, m2, e2, hr2⟩ := scan_s_take 1023 m1 r1 t2' r2' h2
      rw [e2] at h
      simp only at h ⊢
      cases h3 : scan_s 15 r2' with
      | none => rfl
      | some a3 =>
        obtain ⟨t3', r3'⟩ := a3
        rw [hr2] at h3
        obtain ⟨t3, r3, m3, e3, _⟩ := scan_s_take 15 m2 r2 t3' r3' h3
        rw [e3] at h
        cases h

/-- A line with fewer than three tokens, the first of at most 15 bytes and the second of
at most 1023, makes `sscanf` return less than `3`. -/
theorem sscanf_request_few (s : List Nat) (h0 : 0 ∉ s) (hfew : (tokens s).length < 3)
    (hw1 : ∀ t, (tokens s)[0]? = some t → t.length ≤ 15)
    (hw2 : ∀ t, (tokens s)[1]? = some t → t.length ≤ 1023) :
    sscanf_request s = none := by
  unfold sscanf_request
  rw [cstr_of_no_nul _ h0]
  rcases hts : tokens s with _ | ⟨t1, ts⟩
  · rw [scan_s_no_token 15 s hts]
  · rw [hts] at hw1 hw2 hfew
    obtain ⟨_, r1, e1, hr1⟩ := scan_s_first_token 15 s t1 ts hts (hw1 t1 (by simp))
    rw [e1]
    simp only
    rcases ts with _ | ⟨t2, ts⟩
    · rw [scan_s_no_token 1023 r1 hr1]
    · obtain ⟨_, r2, e2, hr2⟩ := scan_s_first_token 1023 r1 t2 ts hr1 (hw2 t2 (by simp))
      rw [e2]
      simp only
      rcases ts with _ | ⟨t3, ts⟩
      · rw [scan_s_no_token 15 r2 hr2]
      · simp only [List.length_cons] at hfew
        omega

theorem parse_line_few (line : List Nat) (hfew : (tokens line).length < 3)
    (hw1 : ∀ t, (tokens line)[0]? = some t → t.length ≤ 15)
    (hw2 : ∀ t, (tokens line)[1]? = some t → t.length ≤ 1023) :
    parse_line line = none := by
  unfold parse_line
  by_cases h0 : 0 ∈ line
  · rw [if_pos h0]
  · rw [if_neg h0]
    exact sscanf_request_take line _ h0 (sscanf_request_few line h0 hfew hw1 hw2)

/-! ## The request line -/

/-- Lines 123-202 on a short request line.  For a request with a complete header block, if
the bytes before the first CR LF hold fewer than three white-space-separated tokens, the
first of at most 15 bytes and the second of at most 1023, the parser fails (no CR LF is
found by `strstr`, or `sscanf` returns less than `3`) and lines 123-202 make one
`send_response` call, the 400 response: nothing is routed. -/
theorem body_fewer_than_three_tokens (reads : List ReadEvent)
    (stream timestr : List Nat) (j : Nat)
    (hd : Delivers reads stream) (hc : Complete stream) (hj : CrlfAt stream j)
    (hmin : ∀ i, i < j → ¬ CrlfAt stream i)
    (hfew : (tokens (stream.take j)).length < 3)
    (hw1 : ∀ t, (tokens (stream.take j))[0]? = some t → t.length ≤ 15)
    (hw2 : ∀ t, (tokens (stream.take j))[1]? = some t → t.length ≤ 1023) :
    (∃ req e, read_loop reads [] = LoopResult.done req (some e) ∧ parse_request req = none) ∧
      handle_client_body reads timestr = [bad_request] := by
  obtain ⟨req, e, hrun, hparse, hcalls⟩ := handle_client_parse reads stream timestr j hd hc hj hmin
  have hnone := parse_line_few (stream.take j) hfew hw1 hw2
  refine ⟨⟨req, e, hrun, by rw [hparse, hnone]⟩, ?_⟩
  rw [hcalls]
  unfold line_response
  rw [hnone]

/-- C4, the code at a failing input.  On descriptor 4 arrives a request whose first line,
`GET /hello`, has two tokens: `handle_client` faults at line 121 and writes nothing, no 400
response.  Lines 123-202 would have made the parser fail and sent the 400 response
(`body_fewer_than_three_tokens`). -/
theorem short_request_line_faults :
    (tokens (lit "GET /hello")).length = 2 ∧
    handle_client 4 [ReadEvent.data (lit "GET /hello\r\nHost: x\r\n\r\n")] [] =
      Outcome.fault ∧
    handle_client_output 4 [ReadEvent.data (lit "GET /hello\r\nHost: x\r\n\r\n")] [] =
      some [] ∧
    parse_request (lit "GET /hello\r\nHost: x\r\n\r\n") = none ∧
    handle_client_body [ReadEvent.data (lit "GET /hello\r\nHost: x\r\n\r\n")] [] =
      [bad_request] := by
  decide

/-- Lines 123-202 look at three fields only.  The request line `GET / HTTP/1.1 extra` has
four tokens and the request line `AAAAAAAAAAAAAAAAA /` has two (the first of 17 bytes);
lines 123-202 parse and route both: the 200 landing page for the first, 405 for the
second. -/
theorem body_three_fields_only :
    (tokens (lit "GET / HTTP/1.1 extra")).length = 4 ∧
    handle_client_body [ReadEvent.data (lit "GET / HTTP/1.1 extra\r\n\r\n")] [] = [page_index] ∧
    page_index.status = 200 ∧
    (tokens (lit "AAAAAAAAAAAAAAAAA /")).length = 2 ∧
    handle_client_body [ReadEvent.data (lit "AAAAAAAAAAAAAAAAA /\r\n\r\n")] [] =
      [page_405 (lit "AAAAAAAAAAAAAAA")] ∧
    (page_405 (lit "AAAAAAAAAAAAAAA")).status = 405 := by
  decide

theorem take_ne_nil {l : List Nat} (h : l ≠ []) {n : Nat} (hn : 0 < n) : l.take n ≠ [] := by
  rcases l with _ | ⟨a, l⟩
  · exact absurd rfl h
  · rcases n with _ | n
    · omega
    · simp

theorem sscanf_of_scans (s m r1 p r2 : List Nat) (h0 : 0 ∉ s)
    (h1 : scan_s 15 s = some (m, r1)) (h2 : scan_s 1023 r1 = some (p, r2))
    (h3 : ∃ c ∈ r2, isspace c = false) :
    ∃ v, sscanf_request s = some ⟨m, p, v⟩ := by
  obtain ⟨v, r3, e3⟩ := scan_s_isSome 15 r2 (by omega) h3
  refine ⟨v, ?_⟩
  unfold sscanf_request
  rw [cstr_of_no_nul _ h0, h1]
  simp only [h2, e3]

theorem space_headed_take (l : List Nat) (n : Nat) :
    (32 :: l).take n = [] ∨ ∃ c r', (32 :: l).take n = c :: r' ∧ isspace c = true := by
  rcases n with _ | n
  · left; rfl
  · right; exact ⟨32, l.take n, rfl, by decide⟩

theorem nonspace_in_take (P rest : List Nat) (n : Nat) (hP : P ≠ [])
    (hns : ∀ c ∈ P, isspace c = false) (hn : 2 ≤ n) :
    ∃ c ∈ (32 :: (P ++ rest)).take n, isspace c = false := by
  rcases P with _ | ⟨a, P⟩
  · exact absurd rfl hP
  · obtain ⟨n', rfl⟩ : ∃ n', n = n' + 2 := ⟨n - 2, by omega⟩
    exact ⟨a, by simp [List.take], hns a (List.mem_cons_self _ _)⟩

theorem nonspace_in_drop (t r : List Nat) (n : Nat) (hns : ∀ c ∈ t, isspace c = false)
    (hn : n < t.length) : ∃ c ∈ t.drop n ++ r, isspace c = false := by
  have hne : t.drop n ≠ [] := by
    intro h
    have := congrArg List.length h
    rw [List.length_drop] at this
    simp at this
    omega
  rcases hd : t.drop n with _ | ⟨a, t'⟩
  · exact absurd hd hne
  · have ha : a ∈ t := List.mem_of_mem_drop (by rw [hd]; exact List.mem_cons_self _ _)
    exact ⟨a, by simp, hns a ha⟩

/-- What `sscanf` stores for a request line `METHOD SP PATH SP VERSION` made of three
tokens of any length: the call returns `3`, `method` is the first 15 bytes of METHOD and,
when METHOD has at most 15 bytes, `path` is the first 1023 bytes of PATH. -/
theorem parse_line_three (M P V : List Nat) (hM : IsToken M) (hP : IsToken P)
    (hV : IsToken V) :
    ∃ p v, parse_line (M ++ 32 :: (P ++ 32 :: V)) = some ⟨M.take 15, p, v⟩ ∧
      (M.length ≤ 15 → p = P.take 1023) := by
  obtain ⟨hM1, hM2, hM3⟩ := hM
  obtain ⟨hP1, hP2, hP3⟩ := hP
  obtain ⟨hV1, hV2, hV3⟩ := hV
  have h0 : 0 ∉ M ++ 32 :: (P ++ 32 :: V) := by
    simp [hM3, hP3, hV3]
  have h0' := not_mem_take h0 (LINE_MAX - 1)
  unfold parse_line
  rw [if_neg h0]
  have hline : (M ++ 32 :: (P ++ 32 :: V)).take (LINE_MAX - 1) =
      M.take 2047 ++ (32 :: (P ++ 32 :: V)).take (2047 - M.length) := by
    rw [show LINE_MAX - 1 = 2047 from rfl, List.take_append_eq_append_take]
  rw [hline] at h0' ⊢
  have hM'ne : M.take 2047 ≠ [] := take_ne_nil hM1 (by omega)
  have hM'ns : ∀ c ∈ M.take 2047, isspace c = false :=
    fun c hc => hM2 c (List.mem_of_mem_take hc)
  have h1 := scan_s_token 15 (M.take 2047) ((32 :: (P ++ 32 :: V)).take (2047 - M.length))
    (by omega) hM'ne hM'ns (space_headed_take _ _)
  rw [List.take_take, show min 15 2047 = 15 from rfl] at h1
  by_cases hlen : M.length ≤ 15
  · -- the method fits: the second conversion meets PATH
    have hMd : (M.take 2047).drop 15 = [] := by
      apply List.drop_of_length_le
      rw [List.length_take]; omega
    rw [hMd, List.nil_append] at h1
    obtain ⟨N, hN, hN2⟩ : ∃ N, 2047 - M.length = N + 1 ∧ 2031 ≤ N :=
      ⟨2046 - M.length, by omega, by omega⟩
    rw [hN] at h1 h0' ⊢
    simp only [List.take_succ_cons] at h1 h0' ⊢
    have hrest : (P ++ 32 :: V).take N = P.take N ++ (32 :: V).take (N - P.length) :=
      List.take_append_eq_append_take
    have hP'ne : P.take N ≠ [] := take_ne_nil hP1 (by omega)
    have h2 := scan_s_token 1023 (P.take N) ((32 :: V).take (N - P.length)) (by omega) hP'ne
      (fun c hc => hP2 c (List.mem_of_mem_take hc)) (space_headed_take _ _)
    rw [List.take_take, show min 1023 N = 1023 by omega, ← hrest,
      ← scan_s_skip 1023 32 _ (by decide)] at h2
    have h3 : ∃ c ∈ (P.take N).drop 1023 ++ (32 :: V).take (N - P.length),
        isspace c = false := by
      by_cases hPl : 1023 < P.length
      · exact nonspace_in_drop _ _ _ (fun c hc => hP2 c (List.mem_of_mem_take hc))
          (by rw [List.length_take]; omega)
      · obtain ⟨c, hc, hcs⟩ := nonspace_in_take V [] (N - P.length) hV1 hV2 (by omega)
        rw [List.append_nil] at hc
        exact ⟨c, List.mem_append_right _ hc, hcs⟩
    obtain ⟨v, hv⟩ := sscanf_of_scans _ _ _ _ _ h0' h1 h2 h3
    exact ⟨P.take 1023, v, hv, fun _ => rfl⟩
  · -- the method is cut: the second conversion meets its remainder
    have htne : (M.take 2047).drop 15 ≠ [] := by
      intro h
      have := congrArg List.length h
      rw [List.length_drop, List.length_take] at this
      simp at this
      omega
    have htns : ∀ c ∈ (M.take 2047).drop 15, isspace c = false :=
      fun c hc => hM'ns c (List.mem_of_mem_drop hc)
    have h2 := scan_s_token 1023 ((M.take 2047).drop 15)
      ((32 :: (P ++ 32 :: V)).take (2047 - M.length)) (by omega) htne htns
      (space_headed_take _ _)
    have h3 : ∃ c ∈ ((M.take 2047).drop 15).drop 1023 ++
        (32 :: (P ++ 32 :: V)).take (2047 - M.length), isspace c = false := by
      by_cases hMl : 1038 < M.length
      · exact nonspace_in_drop _ _ _ htns
          (by rw [List.length_drop, List.length_take]; omega)
      · obtain ⟨c, hc, hcs⟩ := nonspace_in_take P (32 :: V) (2047 - M.length) hP1 hP2 (by omega)
        exact ⟨c, List.mem_append_right _ hc, hcs⟩
    obtain ⟨v, hv⟩ := sscanf_of_scans _ _ _ _ _ h0' h1 h2 h3
    exact ⟨_, v, hv, fun h => absurd h hlen⟩

/-! ## Routing -/

theorem first_crlf_of_line (line rest : List Nat) (h13 : 13 ∉ line) :
    CrlfAt (line ++ 13 :: 10 :: rest) line.length ∧
      (∀ i, i < line.length → ¬ CrlfAt (line ++ 13 :: 10 :: rest) i) ∧
      (line ++ 13 :: 10 :: rest).take line.length = line := by
  refine ⟨?_, ?_, ?_⟩
  · simp [CrlfAt]
  · intro i hi h
    rw [crlfAt_iff] at h
    have h1 := h.1
    rw [List.getElem?_append_left hi, List.getElem?_eq_getElem hi] at h1
    simp only [Option.some.injEq] at h1
    exact h13 (h1 ▸ List.getElem_mem hi)
  · simp

theorem no_cr_of_tokens (M P V : List Nat) (hM : IsToken M) (hP : IsToken P)
    (hV : IsToken V) : 13 ∉ M ++ 32 :: (P ++ 32 :: V) := by
  have key : ∀ t : List Nat, IsToken t → 13 ∉ t := by
    intro t ht h
    have := ht.2.1 13 h
    simp [isspace] at this
  simp [key M hM, key P hP, key V hV]

/-- The calls of `handle_client_body` for a request line `METHOD SP PATH SP VERSION`. -/
theorem handle_client_three (reads : List ReadEvent) (timestr M P V rest : List Nat)
    (hd : Delivers reads ((M ++ 32 :: (P ++ 32 :: V)) ++ 13 :: 10 :: rest))
    (hc : Complete ((M ++ 32 :: (P ++ 32 :: V)) ++ 13 :: 10 :: rest))
    (hM : IsToken M) (hP : IsToken P) (hV : IsToken V) :
    ∃ p v, parse_line (M ++ 32 :: (P ++ 32 :: V)) = some ⟨M.take 15, p, v⟩ ∧
      (M.length ≤ 15 → p = P.take 1023) ∧
      handle_client_body reads timestr = [route timestr (M.take 15) p] := by
  obtain ⟨h1, h2, h3⟩ := first_crlf_of_line (M ++ 32 :: (P ++ 32 :: V)) rest
    (no_cr_of_tokens M P V hM hP hV)
  obtain ⟨p, v, hp, hpp⟩ := parse_line_three M P V hM hP hV
  refine ⟨p, v, hp, hpp, ?_⟩
  rw [handle_client_eq reads _ timestr _ hd hc h1 h2, h3]
  unfold line_response
  rw [hp]

theorem lit_get : lit "GET" = [71, 69, 84] := by decide

theorem method_take_ne_get (M : List Nat) (h : M ≠ lit "GET") : M.take 15 ≠ lit "GET" := by
  intro h2
  by_cases hl : M.length ≤ 15
  · rw [List.take_of_length_le hl] at h2
    exact h h2
  · have := congrArg List.length h2
    rw [List.length_take, lit_get] at this
    simp at this
    omega

theorem route_not_get (timestr m p : List Nat) (h0 : 0 ∉ m) (h : m ≠ lit "GET") :
    route timestr m p = page_405 m := by
  unfold route strcmp_eq
  rw [cstr_of_no_nul m h0, cstr_of_no_nul (lit "GET") (by decide)]
  simp [h]

theorem page_405_body (m : List Nat) (h0 : 0 ∉ m) (hlen : m.length ≤ 15) :
    (page_405 m).body =
      (lit "<!doctype html><html><head><meta charset='utf-8'><title>405</title></head>" ++
        lit "<body style='font-family: sans-serif'>" ++
        lit "<h1>405 Method Not Allowed</h1>" ++
        lit "<p>Method: ") ++ m ++
      (lit "</p>" ++ lit "<p>Only GET is supported.</p>" ++ lit "</body></html>") := by
  unfold page_405 snprintf
  simp only [cstr_of_no_nul m h0]
  rw [List.take_of_length_le]
  · simp only [List.append_assoc]
  · simp only [List.length_append]
    have e1 : (lit "<!doctype html><html><head><meta charset='utf-8'><title>405</title></head>").length = 74 := by decide
    have e2 : (lit "<body style='font-family: sans-serif'>").length = 38 := by decide
    have e3 : (lit "<h1>405 Method Not Allowed</h1>").length = 31 := by decide
    have e4 : (lit "<p>Method: ").length = 11 := by decide
    have e5 : (lit "</p>").length = 4 := by decide
    have e6 : (lit "<p>Only GET is supported.</p>").length = 29 := by decide
    have e7 : (lit "</body></html>").length = 14 := by decide
    rw [e1, e2, e3, e4, e5, e6, e7]
    omega

/-- Lines 123-202 on a method other than `GET`.  For a request with a complete header
block whose request line is `METHOD SP PATH SP VERSION`, the three of them tokens (non-empty,
without white space and without NUL) and METHOD other than `GET`, whatever PATH is,
lines 123-202 make one `send_response` call with status 405, and its body holds the
first 15 bytes of METHOD as a contiguous substring: the whole METHOD when it has at most
15 bytes. -/
theorem body_method_not_allowed (reads : List ReadEvent) (timestr M P V rest : List Nat)
    (hd : Delivers reads ((M ++ 32 :: (P ++ 32 :: V)) ++ 13 :: 10 :: rest))
    (hc : Complete ((M ++ 32 :: (P ++ 32 :: V)) ++ 13 :: 10 :: rest))
    (hM : IsToken M) (hP : IsToken P) (hV : IsToken V) (hget : M ≠ lit "GET") :
    ∃ r, handle_client_body reads timestr = [r] ∧ r.status = 405 ∧
      M.take 15 <:+: r.body ∧ (M.length ≤ 15 → M <:+: r.body) := by
  obtain ⟨p, v, _, _, hcalls⟩ := handle_client_three reads timestr M P V rest hd hc hM hP hV
  have h0 : 0 ∉ M.take 15 := not_mem_take hM.2.2 15
  rw [route_not_get timestr _ p h0 (method_take_ne_get M hget)] at hcalls
  have hbody := page_405_body (M.take 15) h0 (by rw [List.length_take]; omega)
  have hin : M.take 15 <:+: (page_405 (M.take 15)).body := ⟨_, _, hbody.symm⟩
  refine ⟨_, hcalls, rfl, hin, ?_⟩
  intro hl
  rw [List.take_of_length_le hl] at hin
  rw [List.take_of_length_le hl]
  exact hin

/-- C5, the code at a failing input.  On descriptor 4 arrives `POST / HTTP/1.1`:
`handle_client` faults at line 121 and writes nothing, no 405 response.  Lines 123-202
would have called `page_405` with the method `POST`, whose body holds `POST`
(`body_method_not_allowed`). -/
theorem post_request_faults :
    handle_client 4 [ReadEvent.data (lit "POST / HTTP/1.1\r\n\r\n")] [] = Outcome.fault ∧
    handle_client_output 4 [ReadEvent.data (lit "POST / HTTP/1.1\r\n\r\n")] [] = some [] ∧
    handle_client_body [ReadEvent.data (lit "POST / HTTP/1.1\r\n\r\n")] [] =
      [page_405 (lit "POST")] ∧
    (page_405 (lit "POST")).status = 405 ∧
    lit "POST" <:+: (page_405 (lit "POST")).body := by
  decide

/-- The limits of lines 123-202 on the method.  With a NUL byte in the METHOD token
(`PO\0ST`) they send 400, not 405; and for the 17-byte METHOD `AAAAAAAAAAAAAAAAA` the 405
body holds only its first 15 bytes. -/
theorem body_method_limits :
    handle_client_body [ReadEvent.data ([80, 79, 0, 83, 84] ++ lit " / HTTP/1.1\r\n\r\n")] [] =
      [bad_request] ∧ bad_request.status = 400 ∧
    ∃ r, handle_client_body [ReadEvent.data (lit "AAAAAAAAAAAAAAAAA / HTTP/1.1\r\n\r\n")] [] = [r] ∧
      r.status = 405 ∧ ¬ (lit "AAAAAAAAAAAAAAAAA" <:+: r.body) :=
  ⟨by decide, by decide, _, rfl, by decide, by decide⟩

theorem path_take_ne_route (P r : List Nat) (h : P ≠ r) (hr : r.length ≤ 12) :
    P.take 1023 ≠ r := by
  intro h2
  by_cases hl : P.length ≤ 1023
  · rw [List.take_of_length_le hl] at h2
    exact h h2
  · have := congrArg List.length h2
    rw [List.length_take] at this
    omega

theorem route_get_other (timestr p : List Nat) (h0 : 0 ∉ p)
    (h1 : p ≠ lit "/") (h2 : p ≠ lit "/index.html") (h3 : p ≠ lit "/hello")
    (h4 : p ≠ lit "/time") (h5 : p ≠ lit "/favicon.ico") :
    route timestr (lit "GET") p = page_404 p := by
  unfold route strcmp_eq
  rw [cstr_of_no_nul p h0, cstr_of_no_nul (lit "GET") (by decide),
    cstr_of_no_nul (lit "/") (by decide), cstr_of_no_nul (lit "/index.html") (by decide),
    cstr_of_no_nul (lit "/hello") (by decide), cstr_of_no_nul (lit "/time") (by decide),
    cstr_of_no_nul (lit "/favicon.ico") (by decide)]
  simp [h1, h2, h3, h4, h5]

theorem page_404_body (p : List Nat) (h0 : 0 ∉ p) :
    (page_404 p).body =
      (lit "<!doctype html><html><head><meta charset='utf-8'><title>404</title></head>" ++
        lit "<body style='font-family: sans-serif'>" ++
        lit "<h1>404 Not Found</h1>" ++
        lit "<p>Path: ") ++ p.take 368 ++
      (lit "</p>" ++ lit "<p><a href='/'>返回首页</a></p>" ++ lit "</body></html>").take
        (368 - p.length) := by
  unfold page_404 snprintf
  simp only [cstr_of_no_nul p h0]
  have e : (lit "<!doctype html><html><head><meta charset='utf-8'><title>404</title></head>" ++
        lit "<body style='font-family: sans-serif'>" ++
        lit "<h1>404 Not Found</h1>" ++
        lit "<p>Path: ").length = 143 := by decide
  generalize lit "<!doctype html><html><head><meta charset='utf-8'><title>404</title></head>" ++
        lit "<body style='font-family: sans-serif'>" ++
        lit "<h1>404 Not Found</h1>" ++
        lit "<p>Path: " = pre at e ⊢
  simp only [List.append_assoc]
  rw [List.take_append_eq_append_take, List.take_append_eq_append_take, e,
    List.take_of_length_le (by omega : pre.length ≤ 512 - 1)]

/-- Lines 123-202 on an unknown path.  For a request with a complete
header block whose request line is `GET SP PATH SP VERSION`, PATH and VERSION tokens
(non-empty, without white space and without NUL) and PATH none of `/`, `/index.html`,
`/hello`, `/time`, `/favicon.ico`, lines 123-202 make one `send_response` call with
status 404, and its body holds the first 368 bytes of PATH as a contiguous substring: the
whole PATH when it has at most 368 bytes. -/
theorem body_not_found_echoes_path (reads : List ReadEvent) (timestr P V rest : List Nat)
    (hd : Delivers reads ((lit "GET" ++ 32 :: (P ++ 32 :: V)) ++ 13 :: 10 :: rest))
    (hc : Complete ((lit "GET" ++ 32 :: (P ++ 32 :: V)) ++ 13 :: 10 :: rest))
    (hP : IsToken P) (hV : IsToken V)
    (h1 : P ≠ lit "/") (h2 : P ≠ lit "/index.html") (h3 : P ≠ lit "/hello")
    (h4 : P ≠ lit "/time") (h5 : P ≠ lit "/favicon.ico") :
    ∃ r, handle_client_body reads timestr = [r] ∧ r.status = 404 ∧
      P.take 368 <:+: r.body ∧ (P.length ≤ 368 → P <:+: r.body) := by
  obtain ⟨p, v, _, hp, hcalls⟩ := handle_client_three reads timestr (lit "GET") P V rest hd hc
    (by decide) hP hV
  have hp' : p = P.take 1023 := hp (by decide)
  subst hp'
  have h0 : 0 ∉ P.take 1023 := not_mem_take hP.2.2 1023
  rw [show (lit "GET").take 15 = lit "GET" by decide,
    route_get_other timestr _ h0 (path_take_ne_route P _ h1 (by decide))
      (path_take_ne_route P _ h2 (by decide)) (path_take_ne_route P _ h3 (by decide))
      (path_take_ne_route P _ h4 (by decide)) (path_take_ne_route P _ h5 (by decide))] at hcalls
  have hbody := page_404_body (P.take 1023) h0
  rw [List.take_take, show min 368 1023 = 368 from rfl] at hbody
  have hin : P.take 368 <:+: (page_404 (P.take 1023)).body := ⟨_, _, hbody.symm⟩
  refine ⟨_, hcalls, rfl, hin, ?_⟩
  intro hl
  rw [List.take_of_length_le hl] at hin
  exact hin

/-- C6, the code at a failing input.  On descriptor 4 arrives `GET /nope HTTP/1.1`:
`handle_client` faults at line 121 and writes nothing, no 404 response.  Lines 123-202
would have called `page_404` with the path `/nope`, whose body holds `/nope`
(`body_not_found_echoes_path`). -/
theorem unknown_path_faults :
    handle_client 4 [ReadEvent.data (lit "GET /nope HTTP/1.1\r\n\r\n")] [] = Outcome.fault ∧
    handle_client_output 4 [ReadEvent.data (lit "GET /nope HTTP/1.1\r\n\r\n")] [] = some [] ∧
    handle_client_body [ReadEvent.data (lit "GET /nope HTTP/1.1\r\n\r\n")] [] =
      [page_404 (lit "/nope")] ∧
    (page_404 (lit "/nope")).status = 404 ∧
    lit "/nope" <:+: (page_404 (lit "/nope")).body := by
  decide

/-- The limits of lines 123-202 on the path.  With a NUL byte in the PATH (`/a\0b`) they
send 400, not 404; and for the 369-byte PATH made of `/` and 368 letters `a` the 404 body,
cut to the 511 bytes of its buffer, does not hold the PATH. -/
theorem body_not_found_limits :
    handle_client_body [ReadEvent.data (lit "GET " ++ [47, 97, 0, 98] ++ lit " HTTP/1.1\r\n\r\n")] [] =
      [bad_request] ∧ bad_request.status = 400 ∧
    ∃ r, handle_client_body [ReadEvent.data
        (lit "GET " ++ (47 :: List.replicate 368 97) ++ lit " HTTP/1.1\r\n\r\n")] [] = [r] ∧
      r.status = 404 ∧ ¬ ((47 :: List.replicate 368 97) <:+: r.body) :=
  ⟨by decide, by decide, page_404 (47 :: List.replicate 368 97), by decide, by decide, by decide⟩

theorem handle_client_of_parse (reads : List ReadEvent) (timestr req : List Nat) (e : Nat)
    (parsed : RequestLine) (hrun : read_loop reads [] = LoopResult.done req (some e))
    (hparse : parse_request req = some parsed) :
    handle_client_body reads timestr = [route timestr parsed.method parsed.path] := by
  unfold handle_client_body
  rw [hrun]
  simp only
  rw [respond_eq_parse, hparse]

theorem not_mem_cstr (s : List Nat) : 0 ∉ cstr s := by
  intro h
  have := List.mem_takeWhile_imp h
  simp at this

/-- The strings stored by `sscanf` hold no NUL, and fit their buffers. -/
theorem sscanf_request_stored {line : List Nat} {parsed : RequestLine}
    (h : sscanf_request line = some parsed) :
    0 ∉ parsed.method ∧ 0 ∉ parsed.path ∧ 0 ∉ parsed.version ∧
      parsed.method.length ≤ 15 ∧ parsed.path.length ≤ 1023 ∧ parsed.version.length ≤ 15 := by
  unfold sscanf_request at h
  cases h1 : scan_s 15 (cstr line) with
  | none => rw [h1] at h; cases h
  | some a1 =>
    obtain ⟨m, r1⟩ := a1
    rw [h1] at h
    simp only at h
    cases h2 : scan_s 1023 r1 with
    | none => rw [h2] at h; cases h
    | some a2 =>
      obtain ⟨p, r2⟩ := a2
      rw [h2] at h
      simp only at h
      cases h3 : scan_s 15 r2 with
      | none => rw [h3] at h; cases h
      | some a3 =>
        obtain ⟨v, r3⟩ := a3
        rw [h3] at h
        simp only [Option.some.injEq] at h
        subst h
        obtain ⟨_, l1, _, m1, m1'⟩ := scan_s_stored h1
        obtain ⟨_, l2, _, m2, m2'⟩ := scan_s_stored h2
        obtain ⟨_, l3, _, m3, _⟩ := scan_s_stored h3
        have hz := not_mem_cstr line
        refine ⟨fun h => hz (m1 0 h), fun h => hz (m1' 0 (m2 0 h)),
          fun h => hz (m1' 0 (m2' 0 (m3 0 h))), l1, l2, l3⟩

theorem parse_request_stored {req : List Nat} {parsed : RequestLine}
    (h : parse_request req = some parsed) :
    0 ∉ parsed.method ∧ 0 ∉ parsed.path ∧ 0 ∉ parsed.version ∧
      parsed.method.length ≤ 15 ∧ parsed.path.length ≤ 1023 ∧ parsed.version.length ≤ 15 := by
  unfold parse_request at h
  cases hs : strstr req (lit "\r\n") with
  | none => rw [hs] at h; cases h
  | some i =>
    rw [hs] at h
    exact sscanf_request_stored h

theorem route_get_eq (timestr p : List Nat) (h0 : 0 ∉ p) :
    route timestr (lit "GET") p =
      if p = lit "/favicon.ico" then no_content
      else if p = lit "/" ∨ p = lit "/index.html" then page_index
      else if p = lit "/hello" then page_hello
      else if p = lit "/time" then page_time timestr
      else page_404 p := by
  unfold route strcmp_eq
  rw [cstr_of_no_nul p h0, cstr_of_no_nul (lit "GET") (by decide),
    cstr_of_no_nul (lit "/") (by decide), cstr_of_no_nul (lit "/index.html") (by decide),
    cstr_of_no_nul (lit "/hello") (by decide), cstr_of_no_nul (lit "/time") (by decide),
    cstr_of_no_nul (lit "/favicon.ico") (by decide)]
  simp

theorem lit_root : lit "/" = [47] := by decide
theorem lit_index : lit "/index.html" = [47, 105, 110, 100, 101, 120, 46, 104, 116, 109, 108] := by
  decide
theorem lit_hello : lit "/hello" = [47, 104, 101, 108, 108, 111] := by decide
theorem lit_time : lit "/time" = [47, 116, 105, 109, 101] := by decide
theorem lit_favicon :
    lit "/favicon.ico" = [47, 102, 97, 118, 105, 99, 111, 110, 46, 105, 99, 111] := by decide

/-- The route table of lines 123-202.  For a request that is parsed (the read loop found a
terminator and the parser stored three strings) with method `GET`, the `send_response`
call of lines 123-202 depends on
the stored path alone for the static routes: `/` and `/index.html` give the same call,
with status 200, `text/html; charset=utf-8` and the landing page; `/hello` gives status
200, `text/html; charset=utf-8` and a body holding `Hello from C!`; `/time` gives status
200 and `text/html; charset=utf-8`; `/favicon.ico` gives status 204 with an empty body,
written with `Content-Length: 0`. -/
theorem body_route_table (reads : List ReadEvent) (timestr req : List Nat) (e : Nat)
    (parsed : RequestLine) (hrun : read_loop reads [] = LoopResult.done req (some e))
    (hparse : parse_request req = some parsed) (hget : parsed.method = lit "GET") :
    ((parsed.path = lit "/" ∨ parsed.path = lit "/index.html") →
      handle_client_body reads timestr = [page_index]) ∧
    page_index.status = 200 ∧ page_index.content_type = lit "text/html; charset=utf-8" ∧
    page_index.body = lit "<!doctype html><html><head><meta charset='utf-8'><title>Index</title></head><body style='font-family: sans-serif'><h1>Mini C HTTP Server</h1><ul><li><a href='/hello'>/hello</a></li><li><a href='/time'>/time</a></li></ul></body></html>" ∧
    (parsed.path = lit "/hello" → handle_client_body reads timestr = [page_hello]) ∧
    page_hello.status = 200 ∧ page_hello.content_type = lit "text/html; charset=utf-8" ∧
    lit "Hello from C!" <:+: page_hello.body ∧
    (parsed.path = lit "/time" → handle_client_body reads timestr = [page_time timestr]) ∧
    (page_time timestr).status = 200 ∧
    (page_time timestr).content_type = lit "text/html; charset=utf-8" ∧
    (parsed.path = lit "/favicon.ico" → handle_client_body reads timestr = [no_content]) ∧
    no_content.status = 204 ∧ no_content.body = [] ∧
    send_response no_content = some (lit "HTTP/1.1 204 No Content\r\nContent-Type: text/plain\r\nContent-Length: 0\r\nConnection: close\r\nServer: mini-c-http/0.1\r\n\r\n") := by
  have hcalls := handle_client_of_parse reads timestr req e parsed hrun hparse
  have h0 := (parse_request_stored hparse).2.1
  rw [hget, route_get_eq timestr _ h0] at hcalls
  refine ⟨?_, by decide, by decide, by decide, ?_, by decide, by decide, by decide, ?_, rfl,
    rfl, ?_, by decide, by decide, by decide⟩
  · intro h
    rw [hcalls]
    rcases h with h | h <;> rw [h] <;> simp [lit_root, lit_index, lit_favicon]
  · intro h
    rw [hcalls, h]
    simp [lit_root, lit_index, lit_favicon, lit_hello]
  · intro h
    rw [hcalls, h]
    simp [lit_root, lit_index, lit_favicon, lit_hello, lit_time]
  · intro h
    rw [hcalls, h]
    simp

/-- C7, the code at a failing input.  On descriptor 4 arrive, one connection each,
`GET /hello HTTP/1.1`, `GET / HTTP/1.1` and `GET /favicon.ico HTTP/1.1`: `handle_client`
faults at line 121 and writes nothing, no 200 and no 204 response.  Lines 123-202 would
have made the calls of the route table (`body_route_table`). -/
theorem hello_request_faults :
    handle_client 4 [ReadEvent.data (lit "GET /hello HTTP/1.1\r\n\r\n")] [] = Outcome.fault ∧
    handle_client_output 4 [ReadEvent.data (lit "GET /hello HTTP/1.1\r\n\r\n")] [] = some [] ∧
    handle_client 4 [ReadEvent.data (lit "GET / HTTP/1.1\r\n\r\n")] [] = Outcome.fault ∧
    handle_client 4 [ReadEvent.data (lit "GET /favicon.ico HTTP/1.1\r\n\r\n")] [] =
      Outcome.fault ∧
    handle_client_body [ReadEvent.data (lit "GET /hello HTTP/1.1\r\n\r\n")] [] =
      [page_hello] ∧
    handle_client_body [ReadEvent.data (lit "GET / HTTP/1.1\r\n\r\n")] [] = [page_index] ∧
    handle_client_body [ReadEvent.data (lit "GET /favicon.ico HTTP/1.1\r\n\r\n")] [] =
      [no_content] ∧
    page_hello.status = 200 ∧ page_index.status = 200 ∧ no_content.status = 204 := by
  decide

/-- Exact-match routing in lines 123-202.  For a request that is parsed with method `GET`,
the status of their `send_response` call is 200 or 204 exactly when the stored path is byte-for-byte one
of `/`, `/index.html`, `/hello`, `/time`, `/favicon.ico`, and is 404 otherwise; so a stored
path made of one of these routes followed by a non-empty suffix that begins with `?` or
`/` is answered with 404. -/
theorem body_exact_match_routing (reads : List ReadEvent) (timestr req : List Nat) (e : Nat)
    (parsed : RequestLine) (hrun : read_loop reads [] = LoopResult.done req (some e))
    (hparse : parse_request req = some parsed) (hget : parsed.method = lit "GET") :
    ∃ r, handle_client_body reads timestr = [r] ∧
      ((r.status = 200 ∨ r.status = 204) ↔
        parsed.path ∈ [lit "/", lit "/index.html", lit "/hello", lit "/time",
          lit "/favicon.ico"]) ∧
      (parsed.path ∉ [lit "/", lit "/index.html", lit "/hello", lit "/time",
          lit "/favicon.ico"] → r.status = 404) ∧
      (∀ route ∈ [lit "/", lit "/index.html", lit "/hello", lit "/time", lit "/favicon.ico"],
        ∀ c s, (c = 63 ∨ c = 47) → parsed.path = route ++ c :: s → r.status = 404) := by
  have hcalls := handle_client_of_parse reads timestr req e parsed hrun hparse
  have h0 := (parse_request_stored hparse).2.1
  rw [hget, route_get_eq timestr _ h0] at hcalls
  refine ⟨_, hcalls, ?_⟩
  have hother : parsed.path ∉ [lit "/", lit "/index.html", lit "/hello", lit "/time",
      lit "/favicon.ico"] →
      (if parsed.path = lit "/favicon.ico" then no_content
        else if parsed.path = lit "/" ∨ parsed.path = lit "/index.html" then page_index
        else if parsed.path = lit "/hello" then page_hello
        else if parsed.path = lit "/time" then page_time timestr
        else page_404 parsed.path).status = 404 := by
    intro hn
    simp only [List.mem_cons, List.mem_singleton, List.not_mem_nil, or_false, not_or] at hn
    obtain ⟨n1, n2, n3, n4, n5⟩ := hn
    simp only [n1, n2, n3, n4, n5, if_false, or_self]
    rfl
  refine ⟨?_, hother, ?_⟩
  · constructor
    · intro hs
      by_contra hn
      have := hother hn
      omega
    · intro hm
      simp only [List.mem_cons, List.mem_singleton, List.not_mem_nil, or_false] at hm
      rcases hm with h | h | h | h | h <;> rw [h] <;>
        simp [lit_root, lit_index, lit_favicon, lit_hello, lit_time, page_index, page_hello,
          page_time, no_content]
  · intro route hroute c s hc hp
    apply hother
    rw [hp]
    simp only [List.mem_cons, List.mem_singleton, List.not_mem_nil, or_false] at hroute ⊢
    rcases hc with rfl | rfl <;> rcases hroute with h | h | h | h | h <;> rw [h] <;>
      simp [lit_root, lit_index, lit_favicon, lit_hello, lit_time]

/-- C8, the code at a failing input.  On descriptor 4 arrive, one connection each,
`GET /hello?x=1 HTTP/1.1` and `GET /hello HTTP/1.1`: `handle_client` faults at line 121 and
writes nothing, neither the 404 nor the 200 response.  Lines 123-202 would have answered
the first with 404 and the second with 200 (`body_exact_match_routing`). -/
theorem suffixed_route_faults :
    handle_client 4 [ReadEvent.data (lit "GET /hello?x=1 HTTP/1.1\r\n\r\n")] [] =
      Outcome.fault ∧
    handle_client_output 4 [ReadEvent.data (lit "GET /hello?x=1 HTTP/1.1\r\n\r\n")] [] =
      some [] ∧
    handle_client 4 [ReadEvent.data (lit "GET /hello HTTP/1.1\r\n\r\n")] [] = Outcome.fault ∧
    handle_client_output 4 [ReadEvent.data (lit "GET /hello HTTP/1.1\r\n\r\n")] [] =
      some [] ∧
    handle_client_body [ReadEvent.data (lit "GET /hello?x=1 HTTP/1.1\r\n\r\n")] [] =
      [page_404 (lit "/hello?x=1")] ∧
    (page_404 (lit "/hello?x=1")).status = 404 ∧
    handle_client_body [ReadEvent.data (lit "GET /hello HTTP/1.1\r\n\r\n")] [] =
      [page_hello] ∧
    page_hello.status = 200 := by
  decide

/-! ## The response writer -/

theorem digitChar_range : ∀ k, k < 10 → (Nat.digitChar k).toNat = 48 + k := by decide

theorem toDigitsCore_digits (f : Nat) :
    ∀ (n : Nat) (acc : List Char), (∀ c ∈ acc, 48 ≤ c.toNat ∧ c.toNat ≤ 57) →
      ∀ c ∈ Nat.toDigitsCore 10 f n acc, 48 ≤ c.toNat ∧ c.toNat ≤ 57 := by
  induction f with
  | zero => intro n acc h; simpa [Nat.toDigitsCore] using h
  | succ f ih =>
    intro n acc h
    have hd : 48 ≤ (Nat.digitChar (n % 10)).toNat ∧ (Nat.digitChar (n % 10)).toNat ≤ 57 := by
      have := digitChar_range (n % 10) (Nat.mod_lt _ (by omega))
      omega
    have hacc : ∀ c ∈ Nat.digitChar (n % 10) :: acc, 48 ≤ c.toNat ∧ c.toNat ≤ 57 := by
      intro c hc
      rcases List.mem_cons.1 hc with h1 | h1
      · rw [h1]; exact hd
      · exact h c h1
    unfold Nat.toDigitsCore
    simp only
    split
    · exact hacc
    · exact ih _ _ hacc

/-- The bytes of `%d` / `%zu` are decimal digits. -/
theorem decimal_digits (n : Nat) : ∀ c ∈ decimal n, 48 ≤ c ∧ c ≤ 57 := by
  intro c hc
  unfold decimal Nat.toDigits at hc
  obtain ⟨ch, hch, rfl⟩ := List.mem_map.1 hc
  exact toDigitsCore_digits _ _ [] (by simp) ch hch

theorem toDigitsCore_value (f : Nat) :
    ∀ (n : Nat) (acc : List Char), n < f →
      decimal_value ((Nat.toDigitsCore 10 f n acc).map Char.toNat) =
        (acc.map Char.toNat).foldl (fun v d => 10 * v + (d - 48)) n := by
  induction f with
  | zero => intro n acc h; omega
  | succ f ih =>
    intro n acc h
    have hd := digitChar_range (n % 10) (Nat.mod_lt _ (by omega))
    unfold Nat.toDigitsCore
    simp only
    split
    · rename_i h0
      simp only [decimal_value, List.map_cons, List.foldl_cons, hd]
      congr 1
      omega
    · rename_i h0
      rw [ih (n / 10) _ (by omega)]
      simp only [List.map_cons, List.foldl_cons, hd]
      congr 1
      omega

/-- Reading back the digits of `%zu` gives the number printed. -/
theorem decimal_value_decimal (n : Nat) : decimal_value (decimal n) = n := by
  unfold decimal Nat.toDigits
  rw [toDigitsCore_value (n + 1) n [] (by omega)]
  rfl

theorem decimal_length_le (n : Nat) (h : n ≤ 511) : (decimal n).length ≤ 3 := by
  unfold decimal Nat.toDigits
  rw [List.length_map]
  exact Nat.toDigitsCore_length 10 (by omega) (n + 1) n 3 (by omega) (by omega)

theorem header_text_length (s n : Nat) (r c : List Nat) :
    (header_text s r c n).length =
      (decimal s).length + (cstr r).length + (cstr c).length + (decimal n).length + 92 := by
  unfold header_text
  simp only [List.length_append]
  have e1 : (lit "HTTP/1.1 ").length = 9 := by decide
  have e2 : (lit " ").length = 1 := by decide
  have e3 : (lit "\r\n").length = 2 := by decide
  have e4 : (lit "Content-Type: ").length = 14 := by decide
  have e5 : (lit "Content-Length: ").length = 16 := by decide
  have e6 : (lit "Connection: close\r\n").length = 19 := by decide
  have e7 : (lit "Server: mini-c-http/0.1\r\n").length = 25 := by decide
  rw [e1, e2, e3, e4, e5, e6, e7]
  omega

theorem head_facts (s : Nat) (r c : List Nat) (h : (s, r, c) ∈ response_heads) :
    (decimal s).length = 3 ∧ r.length ≤ 18 ∧ c.length ≤ 24 ∧ 0 ∉ r ∧ 0 ∉ c ∧
      13 ∉ r ∧ 13 ∉ c ∧ 10 ∉ r ∧ 10 ∉ c := by
  simp only [response_heads, List.mem_cons, List.mem_singleton, Prod.mk.injEq,
    List.not_mem_nil, or_false] at h
  rcases h with ⟨rfl, rfl, rfl⟩ | ⟨rfl, rfl, rfl⟩ | ⟨rfl, rfl, rfl⟩ | ⟨rfl, rfl, rfl⟩ |
    ⟨rfl, rfl, rfl⟩ <;> decide

/-- For the calls made by this server the header fits `header[512]`, so `send_response`
writes the whole header text followed by the whole body. -/
theorem send_response_eq (r : Response)
    (hhead : (r.status, r.reason, r.content_type) ∈ response_heads)
    (h0 : 0 ∉ r.body) (hlen : r.body.length ≤ 511) :
    send_response r =
      some (header_text r.status r.reason r.content_type r.body.length ++ r.body) := by
  obtain ⟨f1, f2, f3, f4, f5, _⟩ := head_facts _ _ _ hhead
  have hl := header_text_length r.status r.body.length r.reason r.content_type
  rw [f1, cstr_of_no_nul _ f4, cstr_of_no_nul _ f5] at hl
  have hd := decimal_length_le r.body.length hlen
  unfold send_response snprintf strlen
  simp only [cstr_of_no_nul _ h0]
  have hfit : (header_text r.status r.reason r.content_type r.body.length).length ≤ 512 - 1 := by
    omega
  rw [if_pos (by omega), List.take_of_length_le hfit, List.take_left]
  congr 2
  by_cases hb : r.body.length > 0
  · rw [if_pos hb, List.take_of_length_le (le_refl _)]
  · rw [if_neg hb]
    have : r.body = [] := List.length_eq_zero.1 (by omega)
    rw [this]

theorem page_index_sends :
    (page_index.status, page_index.reason, page_index.content_type) ∈ response_heads ∧
      0 ∉ page_index.body ∧ page_index.body.length ≤ 511 := by
  decide

theorem page_hello_sends :
    (page_hello.status, page_hello.reason, page_hello.content_type) ∈ response_heads ∧
      0 ∉ page_hello.body ∧ page_hello.body.length ≤ 511 := by
  decide

theorem bad_request_sends :
    (bad_request.status, bad_request.reason, bad_request.content_type) ∈ response_heads ∧
      0 ∉ bad_request.body ∧ bad_request.body.length ≤ 511 := by
  decide

theorem no_content_sends :
    (no_content.status, no_content.reason, no_content.content_type) ∈ response_heads ∧
      0 ∉ no_content.body ∧ no_content.body.length ≤ 511 := by
  decide

theorem page_time_sends (timestr : List Nat) :
    ((page_time timestr).status, (page_time timestr).reason, (page_time timestr).content_type) ∈
        response_heads ∧
      0 ∉ (page_time timestr).body ∧ (page_time timestr).body.length ≤ 511 := by
  refine ⟨?_, ?_, ?_⟩
  · show (200, lit "OK", lit "text/html; charset=utf-8") ∈ response_heads
    decide
  · unfold page_time snprintf
    simp only
    apply not_mem_take
    have e1 : 0 ∉ lit "<!doctype html><html><head><meta charset='utf-8'><title>Time</title></head>" := by decide
    have e2 : 0 ∉ lit "<body style='font-family: sans-serif'>" := by decide
    have e3 : 0 ∉ lit "<h1>当前时间</h1>" := by decide
    have e4 : 0 ∉ lit "<p>" := by decide
    have e5 : 0 ∉ lit "</p>" := by decide
    have e6 : 0 ∉ lit "<p><a href='/'>返回首页</a></p>" := by decide
    have e7 : 0 ∉ lit "</body></html>" := by decide
    have e8 : 0 ∉ lit "unknown" := by decide
    have e9 := not_mem_cstr (timestr.take 127)
    simp only [List.mem_append, not_or]
    refine ⟨⟨⟨⟨⟨⟨⟨e1, e2⟩, e3⟩, e4⟩, ?_⟩, e5⟩, e6⟩, e7⟩
    split
    · exact e9
    · exact e8
  · unfold page_time snprintf
    simp only [List.length_take]
    omega

theorem page_404_sends (path : List Nat) :
    ((page_404 path).status, (page_404 path).reason, (page_404 path).content_type) ∈
        response_heads ∧
      0 ∉ (page_404 path).body ∧ (page_404 path).body.length ≤ 511 := by
  refine ⟨?_, ?_, ?_⟩
  · show (404, lit "Not Found", lit "text/html; charset=utf-8") ∈ response_heads
    decide
  · unfold page_404 snprintf
    simp only
    apply not_mem_take
    have e1 : 0 ∉ lit "<!doctype html><html><head><meta charset='utf-8'><title>404</title></head>" := by decide
    have e2 : 0 ∉ lit "<body style='font-family: sans-serif'>" := by decide
    have e3 : 0 ∉ lit "<h1>404 Not Found</h1>" := by decide
    have e4 : 0 ∉ lit "<p>Path: " := by decide
    have e5 : 0 ∉ lit "</p>" := by decide
    have e6 : 0 ∉ lit "<p><a href='/'>返回首页</a></p>" := by decide
    have e7 : 0 ∉ lit "</body></html>" := by decide
    simp only [List.mem_append, not_or]
    exact ⟨⟨⟨⟨⟨⟨⟨e1, e2⟩, e3⟩, e4⟩, not_mem_cstr path⟩, e5⟩, e6⟩, e7⟩
  · unfold page_404 snprintf
    simp only [List.length_take]
    omega

theorem page_405_sends (method : List Nat) :
    ((page_405 method).status, (page_405 method).reason, (page_405 method).content_type) ∈
        response_heads ∧
      0 ∉ (page_405 method).body ∧ (page_405 method).body.length ≤ 511 := by
  refine ⟨?_, ?_, ?_⟩
  · show (405, lit "Method Not Allowed", lit "text/html; charset=utf-8") ∈ response_heads
    decide
  · unfold page_405 snprintf
    simp only
    apply not_mem_take
    have e1 : 0 ∉ lit "<!doctype html><html><head><meta charset='utf-8'><title>405</title></head>" := by decide
    have e2 : 0 ∉ lit "<body style='font-family: sans-serif'>" := by decide
    have e3 : 0 ∉ lit "<h1>405 Method Not Allowed</h1>" := by decide
    have e4 : 0 ∉ lit "<p>Method: " := by decide
    have e5 : 0 ∉ lit "</p>" := by decide
    have e6 : 0 ∉ lit "<p>Only GET is supported.</p>" := by decide
    have e7 : 0 ∉ lit "</body></html>" := by decide
    simp only [List.mem_append, not_or]
    exact ⟨⟨⟨⟨⟨⟨⟨e1, e2⟩, e3⟩, e4⟩, not_mem_cstr method⟩, e5⟩, e6⟩, e7⟩
  · unfold page_405 snprintf
    simp only [List.length_take]
    omega

theorem route_sends (timestr method path : List Nat) :
    ((route timestr method path).status, (route timestr method path).reason,
        (route timestr method path).content_type) ∈ response_heads ∧
      0 ∉ (route timestr method path).body ∧ (route timestr method path).body.length ≤ 511 := by
  unfold route
  split
  · exact page_405_sends method
  · split
    · exact no_content_sends
    · split
      · exact page_index_sends
      · split
        · exact page_hello_sends
        · split
          · exact page_time_sends timestr
          · exact page_404_sends path

theorem respond_sends (timestr req : List Nat) (header_end : Option Nat) :
    ((respond timestr req header_end).status, (respond timestr req header_end).reason,
        (respond timestr req header_end).content_type) ∈ response_heads ∧
      0 ∉ (respond timestr req header_end).body ∧
      (respond timestr req header_end).body.length ≤ 511 := by
  cases header_end with
  | none => exact bad_request_sends
  | some e =>
    rw [respond_eq_parse]
    cases parse_request req with
    | none => exact bad_request_sends
    | some parsed => exact route_sends timestr parsed.method parsed.path

/-- Every `send_response` call of `handle_client_body` carries one of the five status lines and
content types of the source and a NUL-free body of at most 511 bytes. -/
theorem handle_client_sends (reads : List ReadEvent) (timestr : List Nat) (r : Response)
    (hr : r ∈ handle_client_body reads timestr) :
    (r.status, r.reason, r.content_type) ∈ response_heads ∧ 0 ∉ r.body ∧
      r.body.length ≤ 511 := by
  unfold handle_client_body at hr
  cases hrun : read_loop reads [] with
  | aborted => rw [hrun] at hr; simp at hr
  | done req header_end =>
    rw [hrun] at hr
    simp only [List.mem_singleton] at hr
    rw [hr]
    exact respond_sends timestr req header_end

theorem termAt_skip_line (l X : List Nat) (k : Nat) (h13 : 13 ∉ l)
    (hX : X.head? ≠ some 13) (hT : TermAt (l ++ 13 :: 10 :: X) k) :
    l.length + 2 ≤ k ∧ TermAt X (k - (l.length + 2)) := by
  rw [termAt_iff] at hT
  obtain ⟨t0, t1, t2, t3⟩ := hT
  by_cases h1 : k < l.length
  · exfalso
    rw [List.getElem?_append_left h1, List.getElem?_eq_getElem h1] at t0
    simp only [Option.some.injEq] at t0
    exact h13 (t0 ▸ List.getElem_mem h1)
  · by_cases h2 : k = l.length
    · exfalso
      subst h2
      rw [List.getElem?_append_right (by omega)] at t2
      simp only [Nat.add_sub_cancel_left, List.getElem?_cons_succ] at t2
      apply hX
      rw [← t2]
      cases X <;> simp
    · by_cases h3 : k = l.length + 1
      · exfalso
        subst h3
        rw [List.getElem?_append_right (by omega)] at t0
        simp at t0
      · obtain ⟨k', rfl⟩ : ∃ k', k = l.length + 2 + k' := ⟨k - (l.length + 2), by omega⟩
        refine ⟨by omega, ?_⟩
        rw [termAt_iff]
        rw [List.getElem?_append_right (by omega)] at t0 t1 t2 t3
        have a0 : l.length + 2 + k' - l.length = k' + 1 + 1 := by omega
        have a1 : l.length + 2 + k' + 1 - l.length = (k' + 1) + 1 + 1 := by omega
        have a2 : l.length + 2 + k' + 2 - l.length = (k' + 2) + 1 + 1 := by omega
        have a3 : l.length + 2 + k' + 3 - l.length = (k' + 3) + 1 + 1 := by omega
        rw [a0] at t0
        rw [a1] at t1
        rw [a2] at t2
        rw [a3] at t3
        simp only [List.getElem?_cons_succ] at t0 t1 t2 t3
        have a4 : l.length + 2 + k' - (l.length + 2) = k' := by omega
        rw [a4]
        exact ⟨t0, t1, t2, t3⟩

theorem termAt_append_right (p X : List Nat) (k : Nat) :
    TermAt (p ++ X) (p.length + k) ↔ TermAt X k := by
  unfold TermAt
  rw [List.drop_append]

/-- The header text is five lines, each closed by CR LF, and an empty line. -/
theorem header_text_lines (s n : Nat) (r c body : List Nat) :
    header_text s r c n ++ body =
      (lit "HTTP/1.1 " ++ decimal s ++ lit " " ++ cstr r) ++ 13 :: 10 ::
        ((lit "Content-Type: " ++ cstr c) ++ 13 :: 10 ::
          ((lit "Content-Length: " ++ decimal n) ++ 13 :: 10 ::
            (lit "Connection: close" ++ 13 :: 10 ::
              (lit "Server: mini-c-http/0.1" ++ 13 :: 10 :: 13 :: 10 :: body)))) := by
  unfold header_text
  rw [lit_crlf, show lit "Connection: close\r\n" = lit "Connection: close" ++ [13, 10] by decide,
    show lit "Server: mini-c-http/0.1\r\n" = lit "Server: mini-c-http/0.1" ++ [13, 10] by decide]
  simp only [List.append_assoc, List.cons_append, List.nil_append]

theorem not_mem_decimal (n : Nat) : 13 ∉ decimal n := by
  intro h
  have := decimal_digits n 13 h
  omega

/-- In the bytes written by `send_response` the first empty line is the one that closes
the header; the body follows it. -/
theorem wire_first_blank (s n : Nat) (r c body : List Nat) (hr : 13 ∉ cstr r)
    (hc : 13 ∉ cstr c) :
    ∃ k, k + 4 = (header_text s r c n).length ∧ TermAt (header_text s r c n ++ body) k ∧
      (∀ j, j < k → ¬ TermAt (header_text s r c n ++ body) j) ∧
      (header_text s r c n ++ body).drop (k + 4) = body := by
  have hlen := header_text_length s n r c
  obtain ⟨P, hP⟩ : ∃ P, header_text s r c n = P ++ [13, 10, 13, 10] := by
    refine ⟨lit "HTTP/1.1 " ++ decimal s ++ lit " " ++ cstr r ++ [13, 10] ++
      lit "Content-Type: " ++ cstr c ++ [13, 10] ++
      lit "Content-Length: " ++ decimal n ++ [13, 10] ++
      lit "Connection: close\r\n" ++ lit "Server: mini-c-http/0.1", ?_⟩
    unfold header_text
    rw [lit_crlf, show lit "Server: mini-c-http/0.1\r\n" =
      lit "Server: mini-c-http/0.1" ++ [13, 10] by decide]
    simp only [List.append_assoc, List.cons_append, List.nil_append]
  have hPlen : P.length + 4 = (header_text s r c n).length := by
    rw [hP, List.length_append]
    rfl
  refine ⟨P.length, hPlen, ?_, ?_, ?_⟩
  · have := (termAt_append_right P ([13, 10, 13, 10] ++ body) 0).2 (by simp [TermAt])
    rw [hP, List.append_assoc]
    exact this
  · intro j hj hT
    rw [header_text_lines] at hT
    have n1 : 13 ∉ lit "HTTP/1.1 " ++ decimal s ++ lit " " ++ cstr r := by
      have e1 : 13 ∉ lit "HTTP/1.1 " := by decide
      have e2 : 13 ∉ lit " " := by decide
      simp only [List.mem_append, not_or]
      exact ⟨⟨⟨e1, not_mem_decimal s⟩, e2⟩, hr⟩
    have n2 : 13 ∉ lit "Content-Type: " ++ cstr c := by
      have e1 : 13 ∉ lit "Content-Type: " := by decide
      simp only [List.mem_append, not_or]
      exact ⟨e1, hc⟩
    have n3 : 13 ∉ lit "Content-Length: " ++ decimal n := by
      have e1 : 13 ∉ lit "Content-Length: " := by decide
      simp only [List.mem_append, not_or]
      exact ⟨e1, not_mem_decimal n⟩
    have n4 : 13 ∉ lit "Connection: close" := by decide
    have n5 : 13 ∉ lit "Server: mini-c-http/0.1" := by decide
    have g2 : ∀ x y : List Nat, ((lit "Content-Type: " ++ x) ++ y).head? ≠ some 13 := by
      intro x y
      rw [show lit "Content-Type: " = 67 :: lit "ontent-Type: " by decide]
      simp
    have g3 : ∀ x y : List Nat, ((lit "Content-Length: " ++ x) ++ y).head? ≠ some 13 := by
      intro x y
      rw [show lit "Content-Length: " = 67 :: lit "ontent-Length: " by decide]
      simp
    have g4 : ∀ y : List Nat, (lit "Connection: close" ++ y).head? ≠ some 13 := by
      intro y
      rw [show lit "Connection: close" = 67 :: lit "onnection: close" by decide]
      simp
    have g5 : ∀ y : List Nat, (lit "Server: mini-c-http/0.1" ++ y).head? ≠ some 13 := by
      intro y
      rw [show lit "Server: mini-c-http/0.1" = 83 :: lit "erver: mini-c-http/0.1" by decide]
      simp
    obtain ⟨b1, T1⟩ := termAt_skip_line _ _ _ n1 (g2 _ _) hT
    obtain ⟨b2, T2⟩ := termAt_skip_line _ _ _ n2 (g3 _ _) T1
    obtain ⟨b3, T3⟩ := termAt_skip_line _ _ _ n3 (g4 _) T2
    obtain ⟨b4, T4⟩ := termAt_skip_line _ _ _ n4 (g5 _) T3
    have b5 : (lit "Server: mini-c-http/0.1").length ≤
        j - ((lit "HTTP/1.1 " ++ decimal s ++ lit " " ++ cstr r).length + 2) -
          ((lit "Content-Type: " ++ cstr c).length + 2) -
          ((lit "Content-Length: " ++ decimal n).length + 2) -
          ((lit "Connection: close").length + 2) := by
      by_contra hlt
      rw [termAt_iff] at T4
      have t0 := T4.1
      rw [List.getElem?_append_left (by omega), List.getElem?_eq_getElem (by omega)] at t0
      simp only [Option.some.injEq] at t0
      exact n5 (t0 ▸ List.getElem_mem _)
    simp only [List.length_append] at b1 b2 b3 b4 b5
    have e1 : (lit "HTTP/1.1 ").length = 9 := by decide
    have e2 : (lit " ").length = 1 := by decide
    have e4 : (lit "Content-Type: ").length = 14 := by decide
    have e5 : (lit "Content-Length: ").length = 16 := by decide
    have e6 : (lit "Connection: close").length = 17 := by decide
    have e7 : (lit "Server: mini-c-http/0.1").length = 23 := by decide
    rw [e1, e2] at b1 b2 b3 b4 b5
    rw [e4] at b2 b3 b4 b5
    rw [e5] at b3 b4 b5
    rw [e6] at b4 b5
    rw [e7] at b5
    omega
  · rw [hPlen, List.drop_left]

/-! ## The response on the wire -/

/-- C9 (Content-Length exactness).  For every `send_response` call of `handle_client`, which
is a call of its lines 123-202 (status 200, 204, 400, 404 or 405), the written bytes start with the status line and the
`Content-Type` line, followed by `Content-Length: ` and the digits of a number `n`, the
`Connection` and `Server` lines and the empty line, which is the first empty line of the
output; the bytes written behind it are the body passed to `send_response` (for a
generated body, the string that was cut to fit its buffer), and their number, counted in
bytes, is the value `n` read back from the digits. -/
theorem content_length_exact (reads : List ReadEvent) (timestr : List Nat) (r : Response)
    (hr : r ∈ handle_client_body reads timestr ∨
      ∃ client_fd, r ∈ (handle_client client_fd reads timestr).calls) :
    ∃ w k n, send_response r = some w ∧
      TermAt w k ∧ (∀ j, j < k → ¬ TermAt w j) ∧
      w.take (k + 4) =
        lit "HTTP/1.1 " ++ decimal r.status ++ lit " " ++ r.reason ++ lit "\r\n" ++
        lit "Content-Type: " ++ r.content_type ++ lit "\r\n" ++
        lit "Content-Length: " ++ decimal n ++ lit "\r\n" ++
        lit "Connection: close\r\n" ++ lit "Server: mini-c-http/0.1\r\n" ++ lit "\r\n" ∧
      w.drop (k + 4) = r.body ∧
      decimal_value (decimal n) = (w.drop (k + 4)).length := by
  obtain ⟨hhead, h0, hlen⟩ := handle_client_sends reads timestr r (mem_body_of_emitted hr)
  obtain ⟨_, _, _, f4, f5, f6, f7, _⟩ := head_facts _ _ _ hhead
  have hsend := send_response_eq r hhead h0 hlen
  obtain ⟨k, hk, hT, hmin, hdrop⟩ := wire_first_blank r.status r.body.length r.reason
    r.content_type r.body (by rwa [cstr_of_no_nul _ f4]) (by rwa [cstr_of_no_nul _ f5])
  refine ⟨_, k, r.body.length, hsend, hT, hmin, ?_, hdrop, ?_⟩
  · rw [hk, List.take_left]
    unfold header_text
    rw [cstr_of_no_nul _ f4, cstr_of_no_nul _ f5]
  · rw [hdrop, decimal_value_decimal]

/-- An instance of C9: the call of `page_hello`, whose body holds multi-byte characters. -/
theorem content_length_exact_witness :
    ∃ w k n, send_response page_hello = some w ∧
      TermAt w k ∧ (∀ j, j < k → ¬ TermAt w j) ∧
      w.take (k + 4) =
        lit "HTTP/1.1 " ++ decimal page_hello.status ++ lit " " ++ page_hello.reason ++
        lit "\r\n" ++ lit "Content-Type: " ++ page_hello.content_type ++ lit "\r\n" ++
        lit "Content-Length: " ++ decimal n ++ lit "\r\n" ++
        lit "Connection: close\r\n" ++ lit "Server: mini-c-http/0.1\r\n" ++ lit "\r\n" ∧
      w.drop (k + 4) = page_hello.body ∧
      decimal_value (decimal n) = (w.drop (k + 4)).length :=
  content_length_exact [ReadEvent.data (lit "GET /hello HTTP/1.1\r\n\r\n")] [] page_hello
    (Or.inl (by decide))

/-- C10 (response wire format).  For every `send_response` call of `handle_client`, which
is a call of its lines 123-202, the written bytes are exactly the status line `HTTP/1.1 SP status SP reason`, the lines
`Content-Type`, `Content-Length` (the decimal length of the body), `Connection: close` and
`Server: mini-c-http/0.1`, each closed by CR LF and in that order, an empty line, and the
body.  The reason and the content type hold no CR or LF and the numbers are digits, so
these are the only header lines and none is folded; the empty line is the first one of the
output and the body follows it verbatim. -/
theorem response_wire_format (reads : List ReadEvent) (timestr : List Nat) (r : Response)
    (hr : r ∈ handle_client_body reads timestr ∨
      ∃ client_fd, r ∈ (handle_client client_fd reads timestr).calls) :
    send_response r = some (
      lit "HTTP/1.1 " ++ decimal r.status ++ lit " " ++ r.reason ++ lit "\r\n" ++
      lit "Content-Type: " ++ r.content_type ++ lit "\r\n" ++
      lit "Content-Length: " ++ decimal r.body.length ++ lit "\r\n" ++
      lit "Connection: close" ++ lit "\r\n" ++
      lit "Server: mini-c-http/0.1" ++ lit "\r\n" ++
      lit "\r\n" ++ r.body) ∧
    (13 ∉ r.reason ∧ 10 ∉ r.reason ∧ 13 ∉ r.content_type ∧ 10 ∉ r.content_type) ∧
    (∀ c ∈ decimal r.status ++ decimal r.body.length, 48 ≤ c ∧ c ≤ 57) ∧
    (∀ w, send_response r = some w →
      ∃ k, TermAt w k ∧ (∀ j, j < k → ¬ TermAt w j) ∧ w.drop (k + 4) = r.body) := by
  obtain ⟨hhead, h0, hlen⟩ := handle_client_sends reads timestr r (mem_body_of_emitted hr)
  obtain ⟨_, _, _, f4, f5, f6, f7, f8, f9⟩ := head_facts _ _ _ hhead
  have hsend := send_response_eq r hhead h0 hlen
  refine ⟨?_, ⟨f6, f8, f7, f9⟩, ?_, ?_⟩
  · rw [hsend]
    unfold header_text
    rw [cstr_of_no_nul _ f4, cstr_of_no_nul _ f5,
      show lit "Connection: close\r\n" = lit "Connection: close" ++ lit "\r\n" by decide,
      show lit "Server: mini-c-http/0.1\r\n" = lit "Server: mini-c-http/0.1" ++ lit "\r\n" by
        decide]
    simp only [List.append_assoc]
  · intro c hc
    rcases List.mem_append.1 hc with h | h
    · exact decimal_digits _ c h
    · exact decimal_digits _ c h
  · intro w hw
    rw [hsend] at hw
    obtain ⟨k, _, hT, hmin, hdrop⟩ := wire_first_blank r.status r.body.length r.reason
      r.content_type r.body (by rwa [cstr_of_no_nul _ f4]) (by rwa [cstr_of_no_nul _ f5])
    rw [← Option.some.inj hw]
    exact ⟨k, hT, hmin, hdrop⟩

/-- An instance of C10: the 404 response to `GET /nope HTTP/1.1`. -/
theorem response_wire_format_witness :
    send_response (page_404 (lit "/nope")) = some (
      lit "HTTP/1.1 " ++ decimal (page_404 (lit "/nope")).status ++ lit " " ++
      (page_404 (lit "/nope")).reason ++ lit "\r\n" ++
      lit "Content-Type: " ++ (page_404 (lit "/nope")).content_type ++ lit "\r\n" ++
      lit "Content-Length: " ++ decimal (page_404 (lit "/nope")).body.length ++ lit "\r\n" ++
      lit "Connection: close" ++ lit "\r\n" ++
      lit "Server: mini-c-http/0.1" ++ lit "\r\n" ++
      lit "\r\n" ++ (page_404 (lit "/nope")).body) :=
  (response_wire_format [ReadEvent.data (lit "GET /nope HTTP/1.1\r\n\r\n")] []
    (page_404 (lit "/nope")) (Or.inl (by decide))).1

/-! ## Independence of what follows the request line; fatal read errors -/

/-- Reads that deliver bytes without completing a terminator or filling the buffer leave
the loop running: it goes on with the next read. -/
theorem read_loop_append (rest : List ReadEvent) :
    ∀ (pre : List ReadEvent) (acc : List Nat),
      no_error pre = true → no_early_close pre = true →
      (acc ++ stream_of pre).length < REQ_MAX →
      (∀ k, ¬ TermAt (acc ++ stream_of pre) k) →
      read_loop (pre ++ rest) acc = read_loop rest (acc ++ stream_of pre) := by
  intro pre
  induction pre with
  | nil => intro acc _ _ _ _; simp [stream_of]
  | cons ev pre ih =>
    intro acc hne hnc hlen hno
    cases ev with
    | eintr =>
      have hsmall : acc.length < REQ_MAX := by
        simp only [stream_of, List.length_append] at hlen
        omega
      simp only [List.cons_append, read_loop, if_pos hsmall, stream_of]
      exact ih acc (by simpa [no_error] using hne) (by simpa [no_early_close] using hnc)
        (by simpa [stream_of] using hlen) (by simpa [stream_of] using hno)
    | error => simp [no_error] at hne
    | data bytes =>
      simp only [no_early_close, Bool.and_eq_true, Bool.not_eq_true', List.isEmpty_eq_false] at hnc
      simp only [stream_of] at hlen hno
      simp only [List.length_append] at hlen
      have hsmall : acc.length < REQ_MAX := by omega
      have hcut : bytes.length ≤ REQ_MAX - acc.length := by omega
      have hgot : ¬ bytes.length = 0 := by
        have : 0 < bytes.length := List.length_pos.2 (by simpa using hnc.1)
        omega
      have hnoT : ∀ k, ¬ TermAt (acc ++ bytes) k := by
        intro k hT
        have hl := termAt_length hT
        apply hno k
        rw [← List.append_assoc]
        exact (termAt_append_left (acc ++ bytes) _ k hl).2 hT
      have hscan : scan (acc ++ bytes) (acc ++ bytes).length = none := by
        cases hs : scan (acc ++ bytes) (acc ++ bytes).length with
        | none => rfl
        | some e =>
          obtain ⟨k, _, hT, _⟩ := scan_some hs
          exact absurd hT (hnoT k)
      simp only [List.cons_append, read_loop, if_pos hsmall, List.take_of_length_le hcut,
        if_neg hgot, hscan, stream_of]
      have := ih (acc ++ bytes) (by simpa [no_error] using hne) hnc.2
        (by simp only [List.length_append]; omega) (by simpa using hno)
      simpa using this

theorem no_terminator_of_bounded {s : List Nat} (h : ∀ k, k < s.length → ¬ TermAt s k)
    (k : Nat) : ¬ TermAt s k := by
  intro hT
  have hlen := termAt_length hT
  exact h k (by omega) hT

/-- C11 (only the request line matters).  Two byte streams that both hold a terminator
ending within their first 8192 bytes and that have the same bytes before their first CR LF
are answered by the same `send_response` calls and the same written bytes, for the same
clock reading: the further header lines and the bytes behind the terminator have no
influence.  This holds of lines 123-202 and of `handle_client` as a whole, on every
descriptor. -/
theorem only_request_line_matters (reads₁ reads₂ : List ReadEvent)
    (stream₁ stream₂ timestr : List Nat) (j₁ j₂ : Nat)
    (hd₁ : Delivers reads₁ stream₁) (hd₂ : Delivers reads₂ stream₂)
    (hc₁ : Complete stream₁) (hc₂ : Complete stream₂)
    (hj₁ : CrlfAt stream₁ j₁) (hmin₁ : ∀ i, i < j₁ → ¬ CrlfAt stream₁ i)
    (hj₂ : CrlfAt stream₂ j₂) (hmin₂ : ∀ i, i < j₂ → ¬ CrlfAt stream₂ i)
    (hsame : stream₁.take j₁ = stream₂.take j₂) :
    handle_client_body reads₁ timestr = handle_client_body reads₂ timestr ∧
      handle_client_body_output reads₁ timestr = handle_client_body_output reads₂ timestr ∧
      (∀ client_fd,
        handle_client client_fd reads₁ timestr = handle_client client_fd reads₂ timestr ∧
        handle_client_output client_fd reads₁ timestr =
          handle_client_output client_fd reads₂ timestr) := by
  have h : handle_client_body reads₁ timestr = handle_client_body reads₂ timestr := by
    rw [handle_client_eq reads₁ stream₁ timestr j₁ hd₁ hc₁ hj₁ hmin₁,
      handle_client_eq reads₂ stream₂ timestr j₂ hd₂ hc₂ hj₂ hmin₂, hsame]
  refine ⟨h, ?_, fun client_fd => handle_client_congr client_fd _ _ _ _ h⟩
  unfold handle_client_body_output
  rw [h]

/-- An instance of C11: two requests for `/hello` with different header lines, one of
them followed by body bytes. -/
theorem only_request_line_matters_witness :
    handle_client_body [ReadEvent.data (lit "GET /hello HTTP/1.1\r\nHost: a\r\n\r\n")] [] =
        handle_client_body [ReadEvent.data (lit "GET /hello HTTP/1.1\r\n"),
          ReadEvent.data (lit "Accept: */*\r\nX: y\r\n\r\nbody bytes")] [] ∧
      handle_client_body_output [ReadEvent.data (lit "GET /hello HTTP/1.1\r\nHost: a\r\n\r\n")] [] =
        handle_client_body_output [ReadEvent.data (lit "GET /hello HTTP/1.1\r\n"),
          ReadEvent.data (lit "Accept: */*\r\nX: y\r\n\r\nbody bytes")] [] ∧
      (∀ client_fd,
        handle_client client_fd
            [ReadEvent.data (lit "GET /hello HTTP/1.1\r\nHost: a\r\n\r\n")] [] =
          handle_client client_fd [ReadEvent.data (lit "GET /hello HTTP/1.1\r\n"),
            ReadEvent.data (lit "Accept: */*\r\nX: y\r\n\r\nbody bytes")] [] ∧
        handle_client_output client_fd
            [ReadEvent.data (lit "GET /hello HTTP/1.1\r\nHost: a\r\n\r\n")] [] =
          handle_client_output client_fd [ReadEvent.data (lit "GET /hello HTTP/1.1\r\n"),
            ReadEvent.data (lit "Accept: */*\r\nX: y\r\n\r\nbody bytes")] []) :=
  only_request_line_matters [ReadEvent.data (lit "GET /hello HTTP/1.1\r\nHost: a\r\n\r\n")]
    [ReadEvent.data (lit "GET /hello HTTP/1.1\r\n"),
      ReadEvent.data (lit "Accept: */*\r\nX: y\r\n\r\nbody bytes")]
    (lit "GET /hello HTTP/1.1\r\nHost: a\r\n\r\n")
    (lit "GET /hello HTTP/1.1\r\nAccept: */*\r\nX: y\r\n\r\nbody bytes") [] 19 19
    (by decide) (by decide) ⟨28, by decide, by decide⟩ ⟨38, by decide, by decide⟩
    (by decide) (by decide) (by decide) (by decide) (by decide)

/-- C12 (a fatal read error sends nothing).  When a read fails with an error other than
`EINTR` while the loop is still reading (the reads before it have delivered fewer than 8192
bytes, with no terminator among them, and the peer has not closed), lines 123-202
return from inside the loop, and `handle_client` on any descriptor makes no
`send_response` call and writes no byte, whatever was accumulated and whatever would have
followed. -/
theorem fatal_read_error_sends_nothing (before after : List ReadEvent) (timestr : List Nat)
    (hne : no_error before = true) (hnc : no_early_close before = true)
    (hlen : (stream_of before).length < REQ_MAX)
    (hno : ∀ k, ¬ TermAt (stream_of before) k) :
    read_loop (before ++ ReadEvent.error :: after) [] = LoopResult.aborted ∧
      handle_client_body (before ++ ReadEvent.error :: after) timestr = [] ∧
      handle_client_body_output (before ++ ReadEvent.error :: after) timestr = some [] ∧
      (∀ client_fd,
        (handle_client client_fd (before ++ ReadEvent.error :: after) timestr).calls = [] ∧
        handle_client_output client_fd (before ++ ReadEvent.error :: after) timestr =
          some []) := by
  have hrun : read_loop (before ++ ReadEvent.error :: after) [] = LoopResult.aborted := by
    rw [read_loop_append _ before [] hne hnc (by simpa using hlen) (by simpa using hno)]
    simp only [List.nil_append, read_loop, if_pos hlen]
  have hcalls : handle_client_body (before ++ ReadEvent.error :: after) timestr = [] := by
    unfold handle_client_body
    rw [hrun]
  have hall : ∀ client_fd,
      (handle_client client_fd (before ++ ReadEvent.error :: after) timestr).calls = [] := by
    intro client_fd
    unfold handle_client
    split
    · simp only [Outcome.calls, hcalls]
    · rfl
  refine ⟨hrun, hcalls, ?_, fun client_fd => ⟨hall client_fd, ?_⟩⟩
  · unfold handle_client_body_output
    rw [hcalls]
    rfl
  · unfold handle_client_output
    rw [hall client_fd]
    rfl

/-- An instance of C12: the request line has arrived when a read fails; the terminator
that would have followed is never read. -/
theorem fatal_read_error_sends_nothing_witness :
    read_loop ([ReadEvent.data (lit "GET / HTTP/1.1\r\n"), ReadEvent.eintr] ++
        ReadEvent.error :: [ReadEvent.data (lit "\r\n")]) [] = LoopResult.aborted ∧
      handle_client_body ([ReadEvent.data (lit "GET / HTTP/1.1\r\n"), ReadEvent.eintr] ++
        ReadEvent.error :: [ReadEvent.data (lit "\r\n")]) [] = [] ∧
      handle_client_body_output ([ReadEvent.data (lit "GET / HTTP/1.1\r\n"), ReadEvent.eintr] ++
        ReadEvent.error :: [ReadEvent.data (lit "\r\n")]) [] = some [] ∧
      (∀ client_fd,
        (handle_client client_fd ([ReadEvent.data (lit "GET / HTTP/1.1\r\n"),
          ReadEvent.eintr] ++ ReadEvent.error :: [ReadEvent.data (lit "\r\n")]) []).calls = [] ∧
        handle_client_output client_fd ([ReadEvent.data (lit "GET / HTTP/1.1\r\n"),
          ReadEvent.eintr] ++ ReadEvent.error :: [ReadEvent.data (lit "\r\n")]) [] =
          some []) :=
  fatal_read_error_sends_nothing [ReadEvent.data (lit "GET / HTTP/1.1\r\n"), ReadEvent.eintr]
    [ReadEvent.data (lit "\r\n")] [] (by decide) (by decide) (by decide)
    (no_terminator_of_bounded (by decide))

/-! ## The accept loop -/

theorem read_loop_no_abort :
    ∀ (reads : List ReadEvent) (acc : List Nat), no_error reads = true →
      ∃ req e, read_loop reads acc = LoopResult.done req e := by
  intro reads
  induction reads with
  | nil => intro acc _; exact ⟨acc, none, rfl⟩
  | cons ev rest ih =>
    intro acc hne
    by_cases hsmall : acc.length < REQ_MAX
    · cases ev with
      | eintr =>
        simp only [read_loop, if_pos hsmall]
        exact ih acc (by simpa [no_error] using hne)
      | error => simp [no_error] at hne
      | data bytes =>
        simp only [read_loop, if_pos hsmall]
        split
        · exact ⟨_, _, rfl⟩
        · split
          · exact ⟨_, _, rfl⟩
          · exact ih _ (by simpa [no_error] using hne)
    · rw [read_loop_full _ _ (by omega)]
      exact ⟨_, _, rfl⟩

/-- On every path `handle_client_body` makes at most one `send_response` call, and exactly one
when no read fails fatally. -/
theorem handle_client_length (reads : List ReadEvent) (timestr : List Nat) :
    (handle_client_body reads timestr).length ≤ 1 ∧
      (no_error reads = true → (handle_client_body reads timestr).length = 1) := by
  unfold handle_client_body
  constructor
  · cases read_loop reads [] <;> simp
  · intro hne
    obtain ⟨req, e, h⟩ := read_loop_no_abort reads [] hne
    rw [h]
    rfl

/-- Were the `printf` of line 121 to return on every connection (descriptor `0`), the
accept loop would keep the discipline: one response at most, then `close`, then the next
`accept`. -/
theorem released_once_of_returning (events : List AcceptEvent)
    (h : ∀ client_fd reads timestr,
      AcceptEvent.connection client_fd reads timestr ∈ events → client_fd = 0) :
    released_once none (accept_loop events) = true := by
  induction events with
  | nil => rfl
  | cons ev rest ih =>
    have ih' := ih (fun fd reads timestr hm => h fd reads timestr (List.mem_cons_of_mem _ hm))
    cases ev with
    | failed => simpa [accept_loop, released_once] using ih'
    | connection fd reads timestr =>
      have hfd : fd = 0 := h fd reads timestr (List.mem_cons_self _ _)
      subst hfd
      have hlen := (handle_client_length reads timestr).1
      rcases hc : handle_client_body reads timestr with _ | ⟨r, _ | ⟨r2, rs⟩⟩
      · simp [accept_loop, released_once, handle_client_returns, hc, ih']
      · simp [accept_loop, released_once, handle_client_returns, hc, ih']
      · rw [hc] at hlen
        simp at hlen

/-- C13, the code at a failing input.  `accept` returns descriptor 4 for a connection that
delivers `GET / HTTP/1.1` and a second connection is waiting: `handle_client` faults at
line 121, so the calls of the loop are `accept` and nothing else: no response is sent on
descriptor 4, `close(4)` is never called, the second connection is never accepted, and the
discipline check fails.  Lines 123-202 would have made exactly one `send_response` call. -/
theorem connection_not_released :
    accept_loop [AcceptEvent.connection 4 [ReadEvent.data (lit "GET / HTTP/1.1\r\n\r\n")] [],
        AcceptEvent.connection 5 [ReadEvent.data (lit "GET /hello HTTP/1.1\r\n\r\n")] []] =
      [MainStep.accept (some 4), MainStep.killed] ∧
    released_once none (accept_loop
      [AcceptEvent.connection 4 [ReadEvent.data (lit "GET / HTTP/1.1\r\n\r\n")] [],
        AcceptEvent.connection 5 [ReadEvent.data (lit "GET /hello HTTP/1.1\r\n\r\n")] []]) =
      false ∧
    MainStep.close 4 ∉ accept_loop
      [AcceptEvent.connection 4 [ReadEvent.data (lit "GET / HTTP/1.1\r\n\r\n")] [],
        AcceptEvent.connection 5 [ReadEvent.data (lit "GET /hello HTTP/1.1\r\n\r\n")] []] ∧
    (handle_client 4 [ReadEvent.data (lit "GET / HTTP/1.1\r\n\r\n")] []).calls = [] ∧
    no_error [ReadEvent.data (lit "GET / HTTP/1.1\r\n\r\n")] = true ∧
    handle_client_body [ReadEvent.data (lit "GET / HTTP/1.1\r\n\r\n")] [] = [page_index] := by
  decide

/-! ## The tokenizer within its field widths; NUL bytes -/

/-- A line of exactly three tokens that fit their fields is stored as it is. -/
theorem sscanf_request_three (s m p v : List Nat) (h0 : 0 ∉ s)
    (hts : tokens s = [m, p, v]) (hm : m.length ≤ 15) (hp : p.length ≤ 1023)
    (hv : v.length ≤ 15) :
    sscanf_request s = some ⟨m, p, v⟩ := by
  unfold sscanf_request
  rw [cstr_of_no_nul _ h0]
  obtain ⟨_, r1, e1, hr1⟩ := scan_s_first_token 15 s m [p, v] hts hm
  obtain ⟨_, r2, e2, hr2⟩ := scan_s_first_token 1023 r1 p [v] hr1 hp
  obtain ⟨_, r3, e3, _⟩ := scan_s_first_token 15 r2 v [] hr2 hv
  simp only [e1, e2, e3]

theorem route_status (timestr method path : List Nat) :
    (route timestr method path).status = 405 ∨ (route timestr method path).status = 204 ∨
      (route timestr method path).status = 200 ∨ (route timestr method path).status = 404 := by
  unfold route
  split
  · left; rfl
  · split
    · right; left; rfl
    · split
      · right; right; left; rfl
      · split
        · right; right; left; rfl
        · split
          · right; right; left; rfl
          · right; right; right; rfl

/-- The state in which the read loop is left for a complete request: `req` is a prefix of
the stream that holds the first terminator, `header_end` is its end, and the first CR LF
lies at or before its start. -/
theorem read_loop_framed (reads : List ReadEvent) (stream : List Nat) (j : Nat)
    (hd : Delivers reads stream) (hc : Complete stream) (hj : CrlfAt stream j)
    (hmin : ∀ i, i < j → ¬ CrlfAt stream i) :
    ∃ n k, read_loop reads [] = LoopResult.done (stream.take n) (some (k + 4)) ∧
      j ≤ k ∧ k + 4 ≤ n ∧ n ≤ REQ_MAX ∧
      CrlfAt (stream.take n) j ∧ (∀ i, i < j → ¬ CrlfAt (stream.take n) i) ∧
      (stream.take n).take j = stream.take j := by
  obtain ⟨hne, hnc, hs⟩ := hd
  subst hs
  obtain ⟨k, hk, hT⟩ := hc
  have hex : ∃ k, TermAt (stream_of reads) k := ⟨k, hT⟩
  have hT0 := Nat.find_spec hex
  have hk0 : Nat.find hex ≤ k := Nat.find_min' hex hT
  obtain ⟨n, hn1, hn2, hrun⟩ := read_loop_found (Nat.find hex) (by omega) reads [] hne hnc
    (fun j h => by simp [TermAt] at h) (by simpa using hT0)
    (fun i hi => by simpa using Nat.find_min hex hi)
  simp only [List.nil_append] at hrun
  have hjk : j ≤ Nat.find hex := by
    by_contra hc
    exact hmin _ (by omega) (termAt_crlfAt hT0)
  refine ⟨n, Nat.find hex, hrun, hjk, hn1, hn2, (crlfAt_take _ n j (by omega)).2 hj,
    fun i hi h => hmin i hi ((crlfAt_take _ n i (by omega)).1 h), ?_⟩
  rw [List.take_take, Nat.min_eq_left (by omega)]

/-- Lines 123-202 on a request line within the field widths.  For a request with a complete
header block whose bytes before the first CR LF are at most 2047 and hold no NUL: when
they consist of exactly three white-space-separated tokens `m`, `p`, `v` (with any white
space before, between and behind them) of at most 15, 1023 and 15 bytes, `sscanf` stores
`method = m`, `path = p`, `version = v`, lines 123-202 route the request and their call is
not the 400 response; when they hold fewer than three tokens, the first of at most 15 bytes
and the second of at most 1023, their call is the 400 response. -/
theorem body_tokenizer_within_widths (reads : List ReadEvent) (stream timestr : List Nat) (j : Nat)
    (hd : Delivers reads stream) (hc : Complete stream) (hj : CrlfAt stream j)
    (hmin : ∀ i, i < j → ¬ CrlfAt stream i)
    (hlen : j ≤ LINE_MAX - 1) (h0 : 0 ∉ stream.take j) :
    (∀ m p v, tokens (stream.take j) = [m, p, v] →
      m.length ≤ 15 → p.length ≤ 1023 → v.length ≤ 15 →
      (∃ req e, read_loop reads [] = LoopResult.done req (some e) ∧
        parse_request req = some ⟨m, p, v⟩) ∧
      handle_client_body reads timestr = [route timestr m p] ∧
      (route timestr m p).status ≠ 400) ∧
    ((tokens (stream.take j)).length < 3 →
      (∀ t, (tokens (stream.take j))[0]? = some t → t.length ≤ 15) →
      (∀ t, (tokens (stream.take j))[1]? = some t → t.length ≤ 1023) →
      handle_client_body reads timestr = [bad_request]) := by
  obtain ⟨req, e, hrun, hparse, hcalls⟩ :=
    handle_client_parse reads stream timestr j hd hc hj hmin
  constructor
  · intro m p v hts hm hp hv
    have hline : parse_line (stream.take j) = some ⟨m, p, v⟩ := by
      unfold parse_line
      rw [if_neg h0, List.take_of_length_le (by rw [List.length_take]; omega)]
      exact sscanf_request_three _ m p v h0 hts hm hp hv
    refine ⟨⟨req, e, hrun, by rw [hparse, hline]⟩, ?_, ?_⟩
    · rw [hcalls]
      unfold line_response
      rw [hline]
    · rcases route_status timestr m p with h | h | h | h <;> omega
  · intro hfew hw1 hw2
    rw [hcalls]
    unfold line_response
    rw [parse_line_few _ hfew hw1 hw2]

/-- C14, the code at a failing input.  On descriptor 4 arrive a request whose first line
holds the three tokens `GET`, `/hello`, `HTTP/1.1` between blanks and a tab, and a request
whose first line holds the one token `GET`: for both `handle_client` faults at line 121
and writes nothing; `sscanf` is not reached for the first and no 400 response is written
for the second.  Lines 123-202 would have stored the three tokens and sent the `/hello`
page for the first, and sent the 400 response for the second
(`body_tokenizer_within_widths`). -/
theorem three_token_request_faults :
    tokens (lit "  GET \t /hello   HTTP/1.1 ") = [lit "GET", lit "/hello", lit "HTTP/1.1"] ∧
    handle_client 4 [ReadEvent.data (lit "  GET \t /hello   HTTP/1.1 \r\n\r\n")] [] =
      Outcome.fault ∧
    handle_client_output 4 [ReadEvent.data (lit "  GET \t /hello   HTTP/1.1 \r\n\r\n")] [] =
      some [] ∧
    parse_request (lit "  GET \t /hello   HTTP/1.1 \r\n\r\n") =
      some ⟨lit "GET", lit "/hello", lit "HTTP/1.1"⟩ ∧
    handle_client_body [ReadEvent.data (lit "  GET \t /hello   HTTP/1.1 \r\n\r\n")] [] =
      [page_hello] ∧
    tokens (lit " GET \t ") = [lit "GET"] ∧
    handle_client 4 [ReadEvent.data (lit " GET \t \r\n\r\n")] [] = Outcome.fault ∧
    handle_client_output 4 [ReadEvent.data (lit " GET \t \r\n\r\n")] [] = some [] ∧
    handle_client_body [ReadEvent.data (lit " GET \t \r\n\r\n")] [] = [bad_request] := by
  decide

/-- Lines 123-202 and a NUL byte before the first CR LF.  For a request with a complete
header block, whose first CR LF starts at index `j` of the stream: `strstr(req, "\r\n")`
returns `NULL` exactly when a NUL byte occurs before the first CR LF, and the call of lines
123-202 is then the 400 response; when no NUL byte precedes it, `strstr` finds the first CR LF, at offset `j`, the
bytes of `req` before it are the bytes of the stream before its first CR LF, they end at or
before `header_end - 4`, and `line` receives them (their first 2047 bytes). -/
theorem body_nul_before_first_crlf (reads : List ReadEvent) (stream timestr : List Nat) (j : Nat)
    (hd : Delivers reads stream) (hc : Complete stream) (hj : CrlfAt stream j)
    (hmin : ∀ i, i < j → ¬ CrlfAt stream i) :
    ∃ req header_end, read_loop reads [] = LoopResult.done req (some header_end) ∧
      (strstr req (lit "\r\n") = none ↔ 0 ∈ stream.take j) ∧
      (0 ∈ stream.take j → handle_client_body reads timestr = [bad_request]) ∧
      (0 ∉ stream.take j →
        strstr req (lit "\r\n") = some j ∧ req.take j = stream.take j ∧
        j + 4 ≤ header_end ∧
        copy_line req j = (stream.take j).take (LINE_MAX - 1) ∧
        (j ≤ LINE_MAX - 1 → copy_line req j = stream.take j)) := by
  obtain ⟨n, k, hrun, hjk, hkn, _, hj', hmin', htake⟩ :=
    read_loop_framed reads stream j hd hc hj hmin
  have hcalls := handle_client_eq reads stream timestr j hd hc hj hmin
  refine ⟨_, _, hrun, ?_, ?_, ?_⟩
  · constructor
    · intro hnone
      by_contra hnul
      rw [← htake] at hnul
      rw [strstr_crlf_some _ j hj' hmin' hnul] at hnone
      cases hnone
    · intro hnul
      rw [← htake] at hnul
      exact strstr_crlf_none _ j hmin' hnul
  · intro hnul
    rw [hcalls]
    unfold line_response parse_line
    rw [if_pos hnul]
  · intro hnul
    have hnul' : 0 ∉ (stream.take n).take j := by rwa [htake]
    refine ⟨strstr_crlf_some _ j hj' hmin' hnul', htake, by omega, ?_, ?_⟩
    · rw [copy_line_eq, htake]
    · intro hle
      rw [copy_line_eq, htake, List.take_of_length_le (by rw [List.length_take]; omega)]

/-- C15, the code at a failing input.  On descriptor 4 arrives the request
`GET /a\0b HTTP/1.1`, with a NUL byte before its first CR LF (at index 17):
`handle_client` faults at line 121 and writes nothing, no 400 response.  Lines 123-202
would have got `NULL` from `strstr` and sent the 400 response
(`body_nul_before_first_crlf`). -/
theorem nul_request_faults :
    CrlfAt (lit "GET /a" ++ 0 :: lit "b HTTP/1.1\r\n\r\n") 17 ∧
    0 ∈ (lit "GET /a" ++ 0 :: lit "b HTTP/1.1\r\n\r\n").take 17 ∧
    handle_client 4 [ReadEvent.data (lit "GET /a" ++ 0 :: lit "b HTTP/1.1\r\n\r\n")] [] =
      Outcome.fault ∧
    handle_client_output 4 [ReadEvent.data (lit "GET /a" ++ 0 :: lit "b HTTP/1.1\r\n\r\n")] [] =
      some [] ∧
    strstr (lit "GET /a" ++ 0 :: lit "b HTTP/1.1\r\n\r\n") (lit "\r\n") = none ∧
    handle_client_body [ReadEvent.data (lit "GET /a" ++ 0 :: lit "b HTTP/1.1\r\n\r\n")] [] =
      [bad_request] := by
  decide

/-! ## The version token; buffer sizes -/

theorem route_long_method (timestr M p : List Nat) (hM : IsToken M) (hlen : ¬ M.length ≤ 15) :
    route timestr (M.take 15) p = page_405 (M.take 15) := by
  apply route_not_get timestr _ p (not_mem_take hM.2.2 15)
  intro h
  have := congrArg List.length h
  rw [List.length_take, lit_get] at this
  simp at this
  omega

/-- Every response of `handle_client` starts with `HTTP/1.1 `. -/
theorem status_line_version (reads : List ReadEvent) (timestr : List Nat) (r : Response)
    (hr : r ∈ handle_client_body reads timestr ∨
      ∃ client_fd, r ∈ (handle_client client_fd reads timestr).calls) :
    ∃ w, send_response r = some w ∧ lit "HTTP/1.1 " <+: w := by
  obtain ⟨hhead, h0, hlen⟩ := handle_client_sends reads timestr r (mem_body_of_emitted hr)
  refine ⟨_, send_response_eq r hhead h0 hlen, ?_⟩
  unfold header_text
  simp only [List.append_assoc]
  exact List.prefix_append _ _

theorem complete_of_line (line : List Nat) (hlen : (line ++ [13, 10, 13, 10]).length ≤ REQ_MAX) :
    Complete (line ++ 13 :: 10 :: [13, 10]) := by
  refine ⟨line.length, ?_, ?_⟩
  · simp only [List.length_append, List.length_cons, List.length_nil] at hlen
    omega
  · simp [TermAt]

theorem no_cr_of_words (M P V : List Nat) (hM : IsWord M) (hP : IsWord P) (hV : IsWord V) :
    13 ∉ M ++ 32 :: (P ++ 32 :: V) := by
  have key : ∀ t : List Nat, IsWord t → 13 ∉ t := by
    intro t ht h
    have := ht.2 13 h
    simp [isspace] at this
  simp [key M hM, key P hP, key V hV]

theorem line_not_complete (line : List Nat) (h13 : 13 ∉ line)
    (hlen : ¬ (line ++ [13, 10, 13, 10]).length ≤ REQ_MAX) :
    ¬ Complete (line ++ 13 :: 10 :: [13, 10]) := by
  rintro ⟨k, hk, hT⟩
  rw [termAt_iff] at hT
  by_cases hl : k < line.length
  · have h0 := hT.1
    rw [List.getElem?_append_left hl, List.getElem?_eq_getElem hl] at h0
    simp only [Option.some.injEq] at h0
    exact h13 (h0 ▸ List.getElem_mem hl)
  · simp only [List.length_append, List.length_cons, List.length_nil] at hlen
    omega

/-- Lines 123-202 on a request line that holds a NUL byte: the 400 response. -/
theorem handle_client_nul_line (reads : List ReadEvent) (timestr line rest : List Nat)
    (hd : Delivers reads (line ++ 13 :: 10 :: rest))
    (hc : Complete (line ++ 13 :: 10 :: rest)) (h13 : 13 ∉ line) (h0 : 0 ∈ line) :
    handle_client_body reads timestr = [bad_request] := by
  obtain ⟨h1, h2, h3⟩ := first_crlf_of_line line rest h13
  rw [handle_client_eq reads _ timestr _ hd hc h1 h2, h3]
  unfold line_response parse_line
  rw [if_pos h0]

theorem nul_in_line (M P V : List Nat) :
    0 ∈ M ++ 32 :: (P ++ 32 :: V) ↔ 0 ∈ M ∨ 0 ∈ P ∨ 0 ∈ V := by
  simp

/-- Lines 123-202 on the request `METHOD SP PATH SP VERSION CRLF CRLF`, for words that may
hold NUL bytes and a request of any length: 400 when the request has more than 8192 bytes
or a NUL byte, and otherwise the route of the stored method and path, in which VERSION does
not occur. -/
theorem handle_client_words (reads : List ReadEvent) (timestr M P V : List Nat)
    (hd : Delivers reads ((M ++ 32 :: (P ++ 32 :: V)) ++ 13 :: 10 :: [13, 10]))
    (hM : IsWord M) (hP : IsWord P) (hV : IsWord V) :
    handle_client_body reads timestr =
      if ((M ++ 32 :: (P ++ 32 :: V)) ++ [13, 10, 13, 10]).length ≤ REQ_MAX then
        if 0 ∈ M ∨ 0 ∈ P ∨ 0 ∈ V then [bad_request]
        else if M.length ≤ 15 then [route timestr M (P.take 1023)]
        else [page_405 (M.take 15)]
      else [bad_request] := by
  have h13 := no_cr_of_words M P V hM hP hV
  split
  · rename_i hlen
    have hc := complete_of_line _ hlen
    split
    · rename_i h0
      exact handle_client_nul_line reads timestr _ _ hd hc h13 ((nul_in_line M P V).2 h0)
    · rename_i h0
      have hM' : IsToken M := ⟨hM.1, hM.2, fun h => h0 (Or.inl h)⟩
      have hP' : IsToken P := ⟨hP.1, hP.2, fun h => h0 (Or.inr (Or.inl h))⟩
      have hV' : IsToken V := ⟨hV.1, hV.2, fun h => h0 (Or.inr (Or.inr h))⟩
      obtain ⟨p, v, _, hp, hcalls⟩ := handle_client_three reads timestr M P V [13, 10] hd hc
        hM' hP' hV'
      rw [hcalls]
      split
      · rename_i hl
        rw [hp hl, List.take_of_length_le hl]
      · rename_i hl
        rw [route_long_method timestr M p hM' hl]
  · rename_i hlen
    obtain ⟨hne, _, hs⟩ := hd
    apply handle_client_incomplete reads timestr hne
    rw [hs]
    exact not_complete_take (line_not_complete _ h13 hlen)

theorem stream_of_single (bytes : List Nat) : stream_of [ReadEvent.data bytes] = bytes := by
  simp [stream_of]

theorem long_version_incomplete (n : Nat) (hn : REQ_MAX ≤ n) :
    ¬ Complete (lit "GET / " ++ (List.replicate n 97 ++ [13, 10, 13, 10])) := by
  rintro ⟨k, hk, hT⟩
  rw [termAt_iff] at hT
  have h0 := hT.1
  have hA : lit "GET / " = [71, 69, 84, 32, 47, 32] := by decide
  rw [hA] at h0
  by_cases h6 : k < 6
  · interval_cases k <;> simp at h0
  · rw [List.getElem?_append_right (by simpa using h6)] at h0
    have hk' : k - [71, 69, 84, 32, 47, 32].length < (List.replicate n 97).length := by
      simp only [List.length_cons, List.length_nil, List.length_replicate]
      omega
    rw [List.getElem?_append_left hk', List.getElem?_eq_getElem hk'] at h0
    simp at h0

/-- Lines 123-202 and the bytes of the version token.  With a NUL byte in the version token
(`a\0`) the call of lines 123-202 for `GET / a\0 CRLF CRLF` is the 400 response while that
for `GET / x CRLF CRLF` is the 200 landing page; and with a version token of 8200 bytes the
terminator lies behind the 8192 bytes of the buffer and the call is the 400 response as
well.  No descriptor that `accept` returns reaches these lines. -/
theorem body_version_limits :
    handle_client_body [ReadEvent.data (lit "GET / " ++ [97, 0] ++ lit "\r\n\r\n")] [] =
      [bad_request] ∧
    handle_client_body [ReadEvent.data (lit "GET / x\r\n\r\n")] [] = [page_index] ∧
    handle_client_body
      [ReadEvent.data (lit "GET / " ++ (List.replicate 8200 97 ++ [13, 10, 13, 10]))] [] =
      [bad_request] ∧
    bad_request ≠ page_index :=
  ⟨by decide, by decide,
    handle_client_incomplete _ [] rfl
      (not_complete_take (by
        rw [stream_of_single]
        exact long_version_incomplete 8200 (by decide))),
    by decide⟩

theorem status_405_is_page_405 (reads : List ReadEvent) (timestr : List Nat) (r : Response)
    (hr : r ∈ handle_client_body reads timestr) (hs : r.status = 405) :
    ∃ method, method.length ≤ 15 ∧ 0 ∉ method ∧ r = page_405 method := by
  unfold handle_client_body at hr
  cases hrun : read_loop reads [] with
  | aborted => rw [hrun] at hr; simp at hr
  | done req header_end =>
    rw [hrun] at hr
    simp only [List.mem_singleton] at hr
    subst hr
    cases header_end with
    | none => simp [respond, bad_request] at hs
    | some e =>
      rw [respond_eq_parse] at hs ⊢
      generalize hparse : parse_request req = pr at hs ⊢
      cases pr with
      | none => simp [bad_request] at hs
      | some parsed =>
        simp only at hs ⊢
        obtain ⟨h0, _, _, hl, _⟩ := parse_request_stored hparse
        refine ⟨parsed.method, hl, h0, ?_⟩
        unfold route at hs ⊢
        split
        · rfl
        · rename_i hget
          rw [if_neg hget] at hs
          exfalso
          revert hs
          split
          · simp [no_content]
          · split
            · simp [page_index]
            · split
              · simp [page_hello]
              · split
                · simp [page_time]
                · simp [page_404]

/-- C18 (the response header fits its buffer).  For every status line and content type
of the source and every body length up to 511, the count `n` returned by `snprintf` for the
header satisfies `0 < n < 512` and the string left in `header[512]` is the whole header
text, so nothing is cut and `write(fd, header, n)` stays inside the buffer; every
`send_response` call of `handle_client`, which is a call of its lines 123-202, is of this
kind.  The body of `page_405` for a method of at most 15 bytes has fewer than 256 bytes and
is left whole in `body[256]`; `handle_client` calls `page_405` only with such a method. -/
theorem header_fits_buffer :
    (∀ status reason content_type body_len,
      (status, reason, content_type) ∈ response_heads → body_len ≤ 511 →
      0 < (snprintf 512 (header_text status reason content_type body_len)).2 ∧
      (snprintf 512 (header_text status reason content_type body_len)).2 < 512 ∧
      (snprintf 512 (header_text status reason content_type body_len)).1 =
        header_text status reason content_type body_len) ∧
    (∀ reads timestr r, (r ∈ handle_client_body reads timestr ∨
        ∃ client_fd, r ∈ (handle_client client_fd reads timestr).calls) →
      (r.status, r.reason, r.content_type) ∈ response_heads ∧ strlen r.body ≤ 511) ∧
    (∀ method, method.length ≤ 15 → 0 ∉ method →
      (page_405 method).body.length < 256 ∧
      (page_405 method).body =
        lit "<!doctype html><html><head><meta charset='utf-8'><title>405</title></head>" ++
        lit "<body style='font-family: sans-serif'>" ++
        lit "<h1>405 Method Not Allowed</h1>" ++
        lit "<p>Method: " ++ method ++ lit "</p>" ++
        lit "<p>Only GET is supported.</p>" ++
        lit "</body></html>") ∧
    (∀ reads timestr r, (r ∈ handle_client_body reads timestr ∨
        ∃ client_fd, r ∈ (handle_client client_fd reads timestr).calls) → r.status = 405 →
      ∃ method, method.length ≤ 15 ∧ 0 ∉ method ∧ r = page_405 method) := by
  refine ⟨?_, ?_, ?_, fun reads timestr r hr hs =>
    status_405_is_page_405 reads timestr r (mem_body_of_emitted hr) hs⟩
  · intro status reason content_type body_len hhead hb
    obtain ⟨f1, f2, f3, f4, f5, _⟩ := head_facts _ _ _ hhead
    have hl := header_text_length status body_len reason content_type
    rw [f1, cstr_of_no_nul _ f4, cstr_of_no_nul _ f5] at hl
    have hd := decimal_length_le body_len hb
    unfold snprintf
    simp only
    refine ⟨by omega, by omega, List.take_of_length_le (by omega)⟩
  · intro reads timestr r hr
    obtain ⟨hhead, h0, hlen⟩ := handle_client_sends reads timestr r (mem_body_of_emitted hr)
    refine ⟨hhead, ?_⟩
    unfold strlen
    rw [cstr_of_no_nul _ h0]
    exact hlen
  · intro method hl h0
    have hbody := page_405_body method h0 hl
    constructor
    · rw [hbody]
      simp only [List.length_append]
      have e1 : (lit "<!doctype html><html><head><meta charset='utf-8'><title>405</title></head>").length = 74 := by decide
      have e2 : (lit "<body style='font-family: sans-serif'>").length = 38 := by decide
      have e3 : (lit "<h1>405 Method Not Allowed</h1>").length = 31 := by decide
      have e4 : (lit "<p>Method: ").length = 11 := by decide
      have e5 : (lit "</p>").length = 4 := by decide
      have e6 : (lit "<p>Only GET is supported.</p>").length = 29 := by decide
      have e7 : (lit "</body></html>").length = 14 := by decide
      rw [e1, e2, e3, e4, e5, e6, e7]
      omega
    · rw [hbody]
      simp only [List.append_assoc]

/-! ## Bounds of the read loop -/

theorem scan_steps_in_bounds (req : List Nat) (total : Nat) (ht : total ≤ REQ_MAX) :
    ∀ (fuel i : Nat), 3 ≤ i → ∀ s ∈ scan_steps req total i fuel, step_in_bounds s = true := by
  intro fuel
  induction fuel with
  | zero => intro i _ s hs; simp [scan_steps] at hs
  | succ n ih =>
    intro i hi s hs
    unfold scan_steps at hs
    by_cases hlt : i < total
    · rw [if_pos hlt] at hs
      rcases List.mem_cons.1 hs with h | h
      · subst h
        simp [step_in_bounds, hi, hlt, ht]
      · by_cases hterm : term_at req i = true
        · rw [if_pos hterm] at h; cases h
        · rw [if_neg hterm] at h
          exact ih (i + 1) (by omega) s h
    · rw [if_neg hlt] at hs; cases hs

theorem data_reads_scan_steps (req : List Nat) (total : Nat) :
    ∀ (fuel i : Nat), data_reads (scan_steps req total i fuel) = 0 := by
  intro fuel
  induction fuel with
  | zero => intro i; rfl
  | succ n ih =>
    intro i
    unfold scan_steps
    by_cases hlt : i < total
    · rw [if_pos hlt]
      by_cases hterm : term_at req i = true
      · rw [if_pos hterm]; rfl
      · rw [if_neg hterm]
        have := ih (i + 1)
        simpa [data_reads] using this
    · rw [if_neg hlt]; rfl

theorem data_reads_read (total requested : Nat) (l : List LoopStep) :
    data_reads (LoopStep.read total requested :: l) = data_reads l := by
  simp [data_reads]

theorem data_reads_returned (requested n : Nat) (l : List LoopStep) :
    data_reads (LoopStep.returned requested n :: l) = data_reads l + 1 := by
  simp [data_reads]

theorem data_reads_append (a b : List LoopStep) :
    data_reads (a ++ b) = data_reads a + data_reads b := by
  simp [data_reads, List.filter_append]

/-- The scan visits every index from `3` up to the first terminator end, or up to
`total`: the fuel `total - 3` never runs out before the loop condition fails. -/
theorem scan_from_fuel (req : List Nat) (total : Nat) :
    ∀ (fuel i : Nat), total ≤ i + fuel →
      scan_from req total i fuel = scan_from req total i (fuel + 1) := by
  intro fuel
  induction fuel with
  | zero =>
    intro i h
    have : ¬ i < total := by omega
    simp [scan_from, this]
  | succ n ih =>
    intro i h
    rw [scan_from, scan_from]
    by_cases hlt : i < total
    · rw [if_pos hlt, if_pos hlt]
      by_cases hterm : term_at req i = true
      · rw [if_pos hterm, if_pos hterm]
      · rw [if_neg hterm, if_neg hterm]
        exact ih (i + 1) (by omega)
    · rw [if_neg hlt, if_neg hlt]

theorem read_loop_steps_bounds :
    ∀ (reads : List ReadEvent) (acc : List Nat), acc.length ≤ REQ_MAX →
      (∀ s ∈ read_loop_steps reads acc, step_in_bounds s = true) ∧
        data_reads (read_loop_steps reads acc) + acc.length ≤ REQ_MAX ∧
        (read_loop reads acc).total ≤ REQ_MAX := by
  intro reads
  induction reads with
  | nil =>
    intro acc hacc
    refine ⟨?_, ?_, hacc⟩
    · intro s hs
      unfold read_loop_steps at hs
      split at hs
      · simp only [List.mem_singleton] at hs
        subst hs
        simp [step_in_bounds, hacc]
        omega
      · cases hs
    · unfold read_loop_steps
      split <;> simp [data_reads, hacc]
  | cons ev rest ih =>
    intro acc hacc
    by_cases hsmall : acc.length < REQ_MAX
    · have hread : step_in_bounds (LoopStep.read acc.length (REQ_MAX - acc.length)) = true := by
        simp [step_in_bounds, hacc]
        omega
      cases ev with
      | eintr =>
        obtain ⟨i1, i2, i3⟩ := ih acc hacc
        simp only [read_loop_steps, read_loop, if_pos hsmall]
        refine ⟨?_, ?_, i3⟩
        · intro s hs
          rcases List.mem_cons.1 hs with h | h
          · subst h; exact hread
          · exact i1 s h
        · simpa [data_reads] using i2
      | error =>
        simp only [read_loop_steps, read_loop, if_pos hsmall]
        refine ⟨?_, ?_, by simp [LoopResult.total]⟩
        · intro s hs
          simp only [List.mem_singleton] at hs
          subst hs; exact hread
        · simp [data_reads, hacc]
      | data bytes =>
        simp only [read_loop_steps, read_loop, if_pos hsmall]
        by_cases hgot : (bytes.take (REQ_MAX - acc.length)).length = 0
        · simp only [if_pos hgot]
          refine ⟨?_, ?_, hacc⟩
          · intro s hs
            simp only [List.mem_singleton] at hs
            subst hs; exact hread
          · simp [data_reads, hacc]
        · simp only [if_neg hgot]
          have hgl : (bytes.take (REQ_MAX - acc.length)).length ≤ REQ_MAX - acc.length := by
            rw [List.length_take]; omega
          have hle : (acc ++ bytes.take (REQ_MAX - acc.length)).length ≤ REQ_MAX := by
            rw [List.length_append]; omega
          have hret : step_in_bounds (LoopStep.returned (REQ_MAX - acc.length)
              (bytes.take (REQ_MAX - acc.length)).length) = true := by
            simp only [step_in_bounds, Bool.and_eq_true, decide_eq_true_eq]
            omega
          have hscanb := scan_steps_in_bounds (acc ++ bytes.take (REQ_MAX - acc.length))
            (acc ++ bytes.take (REQ_MAX - acc.length)).length hle
            ((acc ++ bytes.take (REQ_MAX - acc.length)).length - 3) 3 (le_refl 3)
          have hscand := data_reads_scan_steps (acc ++ bytes.take (REQ_MAX - acc.length))
            (acc ++ bytes.take (REQ_MAX - acc.length)).length
            ((acc ++ bytes.take (REQ_MAX - acc.length)).length - 3) 3
          cases hscan : scan (acc ++ bytes.take (REQ_MAX - acc.length))
              (acc ++ bytes.take (REQ_MAX - acc.length)).length with
          | some e =>
            simp only [List.append_nil]
            refine ⟨?_, ?_, hle⟩
            · intro s hs
              rcases List.mem_cons.1 hs with h | h
              · subst h; exact hread
              · rcases List.mem_cons.1 h with h | h
                · subst h; exact hret
                · exact hscanb s h
            · rw [data_reads_read, data_reads_returned, hscand]
              omega
          | none =>
            obtain ⟨i1, i2, i3⟩ := ih (acc ++ bytes.take (REQ_MAX - acc.length)) hle
            simp only
            refine ⟨?_, ?_, i3⟩
            · intro s hs
              rcases List.mem_cons.1 hs with h | h
              · subst h; exact hread
              · rcases List.mem_cons.1 h with h | h
                · subst h; exact hret
                · rcases List.mem_append.1 h with h | h
                  · exact hscanb s h
                  · exact i1 s h
            · rw [data_reads_read, data_reads_returned, data_reads_append, hscand]
              rw [List.length_append] at i2
              omega
    · have hfull : REQ_MAX ≤ acc.length := by omega
      have hsteps : read_loop_steps (ev :: rest) acc = [] := by
        cases ev <;> simp [read_loop_steps, hsmall]
      rw [hsteps, read_loop_full _ _ hfull]
      exact ⟨by simp, by simp [data_reads, hacc], hacc⟩

theorem bytes_returned_scan_steps (req : List Nat) (total : Nat) :
    ∀ (fuel i : Nat) (l : List LoopStep),
      bytes_returned (scan_steps req total i fuel ++ l) = bytes_returned l := by
  intro fuel
  induction fuel with
  | zero => intro i l; rfl
  | succ n ih =>
    intro i l
    unfold scan_steps
    by_cases hlt : i < total
    · rw [if_pos hlt]
      by_cases hterm : term_at req i = true
      · rw [if_pos hterm]; rfl
      · rw [if_neg hterm]
        exact ih (i + 1) l
    · rw [if_neg hlt]; rfl

/-- The step sequence accounts for the bytes in `req` when the loop is left. -/
theorem read_loop_steps_total :
    ∀ (reads : List ReadEvent) (acc req : List Nat) (e : Option Nat),
      read_loop reads acc = LoopResult.done req e →
      bytes_returned (read_loop_steps reads acc) + acc.length = req.length := by
  intro reads
  induction reads with
  | nil =>
    intro acc req e h
    simp only [read_loop, LoopResult.done.injEq] at h
    rw [← h.1]
    unfold read_loop_steps
    split <;> simp [bytes_returned]
  | cons ev rest ih =>
    intro acc req e h
    by_cases hsmall : acc.length < REQ_MAX
    · cases ev with
      | eintr =>
        simp only [read_loop, if_pos hsmall] at h
        simp only [read_loop_steps, if_pos hsmall, bytes_returned]
        exact ih acc req e h
      | error =>
        simp only [read_loop, if_pos hsmall] at h
        cases h
      | data bytes =>
        simp only [read_loop, if_pos hsmall] at h
        simp only [read_loop_steps, if_pos hsmall]
        by_cases hgot : (bytes.take (REQ_MAX - acc.length)).length = 0
        · simp only [if_pos hgot, LoopResult.done.injEq] at h
          simp only [if_pos hgot, bytes_returned]
          rw [← h.1]
          omega
        · simp only [if_neg hgot] at h
          simp only [if_neg hgot, bytes_returned, bytes_returned_scan_steps]
          cases hscan : scan (acc ++ bytes.take (REQ_MAX - acc.length))
              (acc ++ bytes.take (REQ_MAX - acc.length)).length with
          | some e' =>
            rw [hscan] at h
            simp only [LoopResult.done.injEq] at h
            rw [← h.1, List.length_append]
            simp only [bytes_returned]
            omega
          | none =>
            rw [hscan] at h
            simp only at h
            have := ih _ req e h
            rw [List.length_append] at this
            simp only
            omega
    · have hfull : REQ_MAX ≤ acc.length := by omega
      have hsteps : read_loop_steps (ev :: rest) acc = [] := by
        cases ev <;> simp [read_loop_steps, hsmall]
      rw [read_loop_full _ _ hfull] at h
      simp only [LoopResult.done.injEq] at h
      rw [hsteps, ← h.1]
      simp [bytes_returned]

/-- C17 (read-loop bounds and termination).  Whatever the reads meet, every step of the
read loop is in bounds: each `read` is issued at offset `total ≤ 8192` with requested
length `8192 - total ≥ 1`, so it stays inside `req`; each data-returning read returns
between 1 and the requested number of bytes; each test of the terminator scan is at an
index `i` with `3 ≤ i < total ≤ 8192`, so it reads `req[i-3 .. i]` inside the bytes read.
The loop makes at most 8192 data-returning reads and is left with `total ≤ 8192`, the sum
of the counts returned; the scan runs its `for` loop to the end (more fuel does not change
its result). -/
theorem read_loop_bounds (reads : List ReadEvent) :
    (∀ s ∈ read_loop_steps reads [], step_in_bounds s = true) ∧
      data_reads (read_loop_steps reads []) ≤ REQ_MAX ∧
      (read_loop reads []).total ≤ REQ_MAX ∧
      (∀ req e, read_loop reads [] = LoopResult.done req e →
        bytes_returned (read_loop_steps reads []) = req.length) ∧
      (∀ req : List Nat, scan req req.length = scan_from req req.length 3 (req.length - 3 + 1)) := by
  obtain ⟨h1, h2, h3⟩ := read_loop_steps_bounds reads [] (by simp)
  refine ⟨h1, by simpa using h2, h3, ?_, ?_⟩
  · intro req e h
    simpa using read_loop_steps_total reads [] req e h
  · intro req
    exact scan_from_fuel req req.length (req.length - 3) 3 (by omega)

end HttpServer
